import Mathlib

/-!
Shallow embedding of the leave-scheduling core of the salon staffing app:
the month-availability engine (src/lib/quota.ts, src/lib/date.ts,
src/lib/config.ts) and the leave-request mutation routes (the self
request/cancel route, the manager approval route, and the admin server
actions setLeaveStatus / createManagerLeave), over an explicit relational
state.  JavaScript numbers are modelled as rationals; the database tables
are lists of rows; Prisma findFirst is List.find? on the table in row
order; real-world time and Intl timezone formatting are an environment
oracle (todayDayIn, weekdayIn).
-/

namespace Sunday

/-- Role enum (prisma schema). -/
inductive Role where
  | DESIGNER
  | ASSISTANT
  | ROOKIE
  | MANAGER
deriving DecidableEq, Repr

/-- LeaveRequestStatus enum (prisma schema). -/
inductive LeaveStatus where
  | PENDING
  | APPROVED
  | REJECTED
  | CANCELED
deriving DecidableEq, Repr

/-- LeaveRequestSource enum (prisma schema). -/
inductive LeaveSource where
  | SELF
  | BINDING_MIRROR
  | MANAGER
  | SYSTEM
deriving DecidableEq, Repr

/-- ApprovalAction enum (prisma schema). -/
inductive ApprovalAction where
  | APPROVE
  | REJECT
  | FORCE_APPROVE
deriving DecidableEq, Repr

/-- A row of the LeaveRequest table. -/
structure LeaveRequest where
  id : String
  storeId : String
  userId : String
  date : String
  status : LeaveStatus
  source : LeaveSource
  createdByUserId : Option String
  linkedToId : Option String
deriving DecidableEq, Repr

/-- A row of the User table (the fields the engine and routes read). -/
structure UserRow where
  id : String
  storeId : String
  displayName : String
  role : Role
  active : Bool
  baseDemand : Option ℚ
  baseSupply : Option ℚ
deriving DecidableEq, Repr

/-- A row of the Binding table. -/
structure Binding where
  id : String
  storeId : String
  assistantId : String
  designerId : String
  active : Bool
deriving DecidableEq, Repr

/-- A row of the Store table. -/
structure Store where
  id : String
  timezone : String
deriving DecidableEq, Repr

/-- A row of the Approval table. -/
structure Approval where
  storeId : String
  leaveRequestId : String
  managerId : String
  action : ApprovalAction
  reason : Option String
deriving DecidableEq, Repr

/-- A row of the DesignerDemandOverride table. -/
structure DemandOverride where
  storeId : String
  designerId : String
  date : String
  demand : ℚ
deriving DecidableEq, Repr

/-- A row of the RookieBooking table. -/
structure RookieBooking where
  id : String
  storeId : String
  rookieId : String
  date : String
  startMin : Nat
  endMin : Nat
deriving DecidableEq, Repr

/-- The scalar inside a parsed config valueJson object. -/
inductive JsonVal where
  | num (q : ℚ)
  | str (s : String)
  | bool (b : Bool)
  | null
deriving DecidableEq, Repr

/-- A row of the Config table; value is the parse result of valueJson
(none when the JSON is malformed or lacks a value property). -/
structure ConfigRow where
  storeId : String
  key : String
  value : Option JsonVal
  effectiveFrom : Option String
deriving DecidableEq, Repr

/-- The relational store the routes and the engine read and write. -/
structure DB where
  stores : List Store
  users : List UserRow
  config : List ConfigRow
  leave : List LeaveRequest
  bindings : List Binding
  overrides : List DemandOverride
  bookings : List RookieBooking
  approvals : List Approval
  nextId : Nat
deriving DecidableEq, Repr

/-- Environment oracle for real-world time and Intl formatting:
todayDayIn tz = dayOfMonthInTimeZone(tz) for the current instant,
weekdayIn tz date = weekdayInTimeZone(tz, date) (a name such as Sat). -/
structure Env where
  todayDayIn : String → Nat
  weekdayIn : String → String → String

/- ---------- string and date helpers (src/lib/date.ts) ---------- -/

/-- isIsoDate: the regex test for the shape dddd-dd-dd. -/
def isIsoDate (s : String) : Bool :=
  match s.data with
  | [y1, y2, y3, y4, h1, m1, m2, h2, d1, d2] =>
    y1.isDigit && y2.isDigit && y3.isDigit && y4.isDigit &&
    (h1 = Char.ofNat 45) && m1.isDigit && m2.isDigit &&
    (h2 = Char.ofNat 45) && d1.isDigit && d2.isDigit
  | _ => false

/-- The digits of a char list read as a base-10 natural number
(Number(...) on the all-digit strings produced by the iso formats). -/
def digitsToNat (cs : List Char) : Nat :=
  cs.foldl (fun acc c => acc * 10 + (c.toNat - 48)) 0

/-- Take the initial segment of a string (String.slice on a prefix-free
range, e.g. date.slice(0, 7) for the month). -/
def strTake (s : String) (n : Nat) : String :=
  ⟨s.data.take n⟩

/-- Whether pre is an initial segment of s (startsWith / the Prisma
startsWith filter). -/
def strStarts (s pre : String) : Bool :=
  pre.data.isPrefixOf s.data

/-- Number of days in month m of year y (1-based m in 1..12), as
new Date(Date.UTC(y, m, 0)).getUTCDate() yields for in-range months. -/
def gregMonthLen (y m : Nat) : Nat :=
  if m = 2 then
    if y % 4 = 0 && (y % 100 ≠ 0 || y % 400 = 0) then 29 else 28
  else if m = 4 || m = 6 || m = 9 || m = 11 then 30
  else 31

/-- daysInMonth on an YYYY-MM string: parse the two dash-separated
numbers and take the Gregorian month length, normalising an
out-of-range month the way Date.UTC(y, m, 0) does. -/
def daysInMonth (yyyyMm : String) : Nat :=
  match yyyyMm.data.splitOn (Char.ofNat 45) with
  | [ys, ms] =>
    let y := digitsToNat ys
    let m := digitsToNat ms
    let t := y * 12 + m
    if t = 0 then 31 else gregMonthLen ((t - 1) / 12) ((t - 1) % 12 + 1)
  | _ => 31

/-- pad2: two-digit zero padding. -/
def pad2 (n : Nat) : String :=
  if n < 10 then "0" ++ toString n else toString n

/-- dateFromMonthDay: the YYYY-MM-DD string of day d in the month. -/
def dateFromMonthDay (yyyyMm : String) (day : Nat) : String :=
  yyyyMm ++ "-" ++ pad2 day

/- ---------- config reads (src/lib/config.ts) ---------- -/

/-- getConfigValue: the parsed value of the current (effectiveFrom null)
config row for the key, none when absent or malformed. -/
def getConfigValue (cfg : List ConfigRow) (storeId key : String) : Option JsonVal :=
  match cfg.find? (fun r =>
      r.storeId = storeId && r.key = key && r.effectiveFrom = none) with
  | none => none
  | some r => r.value

/-- getNumberConfig: the numeric config value, else the fallback. -/
def getNumberConfig (cfg : List ConfigRow) (storeId key : String) (fallback : ℚ) : ℚ :=
  match getConfigValue cfg storeId key with
  | some (JsonVal.num q) => q
  | _ => fallback

/-- getBooleanConfig: the boolean config value, else the fallback. -/
def getBooleanConfig (cfg : List ConfigRow) (storeId key : String) (fallback : Bool) : Bool :=
  match getConfigValue cfg storeId key with
  | some (JsonVal.bool b) => b
  | _ => fallback

/-- getStringConfig: the string config value, else the fallback. -/
def getStringConfig (cfg : List ConfigRow) (storeId key : String) (fallback : String) : String :=
  match getConfigValue cfg storeId key with
  | some (JsonVal.str s) => s
  | _ => fallback

/- ---------- the availability engine (src/lib/quota.ts) ---------- -/

/-- isOffStatus: PENDING or APPROVED. -/
def isOffStatus (s : LeaveStatus) : Bool :=
  s = LeaveStatus.PENDING || s = LeaveStatus.APPROVED

/-- The requester passed to getMonthAvailability. -/
structure Requester where
  userId : String
  role : Role
deriving DecidableEq, Repr

/-- An entry of a day's offUsers list. -/
structure OffUser where
  userId : String
  displayName : String
  role : Role
  status : LeaveStatus
deriving DecidableEq, Repr

/-- The AvailabilityDay record the engine emits per calendar day. -/
structure AvailabilityDay where
  date : String
  remainingQuota : ℚ
  assistantSupply : ℚ
  rookieSupply : ℚ
  designerDemand : ℚ
  safetyFactor : ℚ
  selectable : Bool
  reasons : List String
  myLeaveStatus : Option LeaveStatus
  myLeaveCancelable : Bool
  offUsers : List OffUser
deriving DecidableEq, Repr

/-- A row of the month leave query (status already restricted to
PENDING/APPROVED by the where clause), with the joined user fields. -/
structure LeaveQueryRow where
  userId : String
  date : String
  status : LeaveStatus
  createdByUserId : Option String
  displayName : String
  role : Role
deriving DecidableEq, Repr

/-- JS String.trim on a char list. -/
def charTrim (cs : List Char) : List Char :=
  ((cs.dropWhile Char.isWhitespace).reverse.dropWhile Char.isWhitespace).reverse

/-- The pieces getMonthAvailability computes once before the day loop. -/
structure MonthCtx where
  month : String
  storeTimeZone : String
  requester : Requester
  safetyFactor : ℚ
  assistantSupplyCfg : ℚ
  rookieSupportSupply : ℚ
  rookieGuestSupply : ℚ
  designerDefaultDemand : ℚ
  closedDates : List String
  closedWeekdays : List String
  assistantBlockSaturday : Bool
  assistantBlockIfMasterWorking : Bool
  rookieAnyBookingSupplyZero : Bool
  inDesignerWindow : Bool
  inAssistantWindow : Bool
  assistants : List UserRow
  rookies : List UserRow
  designers : List UserRow
  leaveRows : List LeaveQueryRow
  monthOverrides : List DemandOverride
  monthBookings : List RookieBooking
  bindingsForAssistant : List Binding
deriving Repr

/-- The off set: (userId, date) pairs of the month rows with off status. -/
def offPairs (ctx : MonthCtx) : List (String × String) :=
  (ctx.leaveRows.filter (fun lr => isOffStatus lr.status)).map
    (fun lr => (lr.userId, lr.date))

/-- The myLeaveByDate entry for a date: the loop sets the key once per
matching row, so the last matching row wins. -/
def myLeaveFor (ctx : MonthCtx) (date : String) : Option LeaveQueryRow :=
  ((ctx.leaveRows.filter (fun lr =>
      lr.userId = ctx.requester.userId && isOffStatus lr.status)).filter
    (fun lr => lr.date = date)).getLast?

/-- One step of the offUsersByDate loop: push unless the userId is
already present. -/
def pushOffUser (list : List OffUser) (lr : LeaveQueryRow) : List OffUser :=
  if list.any (fun x => x.userId = lr.userId) then list
  else list ++ [{ userId := lr.userId, displayName := lr.displayName,
                  role := lr.role,
                  status := if lr.status = LeaveStatus.APPROVED
                            then LeaveStatus.APPROVED else LeaveStatus.PENDING }]

/-- The offUsersByDate entry for a date (first occurrence per user). -/
def offUsersFor (ctx : MonthCtx) (date : String) : List OffUser :=
  ((ctx.leaveRows.filter (fun lr => isOffStatus lr.status)).filter
    (fun lr => lr.date = date)).foldl pushOffUser []

/-- The demandOverrideByDesignerDate lookup (Map.set: last row wins). -/
def demandOverrideFor (ctx : MonthCtx) (designerId date : String) : Option ℚ :=
  ((ctx.monthOverrides.filter (fun o =>
      o.designerId = designerId && o.date = date)).getLast?).map (fun o => o.demand)

/-- The bookingByRookieDate membership test. -/
def hasBooking (ctx : MonthCtx) (rookieId date : String) : Bool :=
  ctx.monthBookings.any (fun b => b.rookieId = rookieId && b.date = date)

/-- The isOff test of the day loop. -/
def isOffOn (ctx : MonthCtx) (userId date : String) : Bool :=
  (offPairs ctx).contains (userId, date)

/-- The isStoreClosed test of the day loop (explicit closed date or
closed weekday code). -/
def isStoreClosedOn (env : Env) (ctx : MonthCtx) (date : String) : Bool :=
  ctx.closedDates.contains date ||
  ctx.closedWeekdays.contains
    ⟨((env.weekdayIn ctx.storeTimeZone date).data.take 3).map Char.toUpper⟩

/-- The assistantSupplySum reduce of the day loop. -/
def assistantSupplySumOn (ctx : MonthCtx) (date : String) : ℚ :=
  ctx.assistants.foldl (fun acc u =>
    if isOffOn ctx u.id date then acc
    else acc + u.baseSupply.getD ctx.assistantSupplyCfg) 0

/-- The rookieSupplySum reduce of the day loop. -/
def rookieSupplySumOn (ctx : MonthCtx) (date : String) : ℚ :=
  ctx.rookies.foldl (fun acc u =>
    if isOffOn ctx u.id date then acc
    else if hasBooking ctx u.id date && ctx.rookieAnyBookingSupplyZero
         then acc + ctx.rookieGuestSupply
         else acc + u.baseSupply.getD ctx.rookieSupportSupply) 0

/-- The designerDemandSum reduce of the day loop. -/
def designerDemandSumOn (ctx : MonthCtx) (date : String) : ℚ :=
  ctx.designers.foldl (fun acc u =>
    if isOffOn ctx u.id date then acc
    else acc + (demandOverrideFor ctx u.id date).getD
                 (u.baseDemand.getD ctx.designerDefaultDemand)) 0

/-- The remainingQuota of a day. -/
def remainingQuotaOn (ctx : MonthCtx) (date : String) : ℚ :=
  assistantSupplySumOn ctx date + rookieSupplySumOn ctx date -
  designerDemandSumOn ctx date * ctx.safetyFactor

/-- The phase-gating verdict: it depends only on the requester role and
the two window flags computed from today's day-of-month, never on the
target date. -/
def phaseLocked (ctx : MonthCtx) : Bool :=
  match ctx.requester.role with
  | Role.DESIGNER => !ctx.inDesignerWindow && !ctx.inAssistantWindow
  | Role.ASSISTANT => !ctx.inAssistantWindow
  | Role.ROOKIE => !ctx.inAssistantWindow
  | Role.MANAGER => false

/-- The assistant Saturday block test of the day loop. -/
def satBlockOn (env : Env) (ctx : MonthCtx) (date : String) : Bool :=
  ctx.requester.role = Role.ASSISTANT && ctx.assistantBlockSaturday &&
  strStarts ⟨(env.weekdayIn ctx.storeTimeZone date).data.map Char.toLower⟩ "sat"

/-- The assistant master-working block test of the day loop (fires when
ANY bound designer is not off that day). -/
def masterBlockOn (ctx : MonthCtx) (date : String) : Bool :=
  ctx.requester.role = Role.ASSISTANT && ctx.assistantBlockIfMasterWorking &&
  decide (0 < ctx.bindingsForAssistant.length) &&
  ctx.bindingsForAssistant.any (fun b =>
    !(offPairs ctx).contains (b.designerId, date))

/-- The per-day body of the loop in getMonthAvailability. -/
def mkDay (env : Env) (ctx : MonthCtx) (d : Nat) : AvailabilityDay :=
  let date := dateFromMonthDay ctx.month d
  let isStoreClosed := isStoreClosedOn env ctx date
  let remainingQuota := remainingQuotaOn ctx date
  let phaseLock := phaseLocked ctx
  let quotaFull : Bool := decide (remainingQuota < 0)
  let satBlock := satBlockOn env ctx date
  let masterBlock := masterBlockOn ctx date
  let selectable := !phaseLock && !isStoreClosed &&
    !(quotaFull && !(ctx.requester.role = Role.DESIGNER)) &&
    !satBlock && !masterBlock
  let reasons :=
    (if phaseLock then ["PHASE_LOCK"] else []) ++
    (if isStoreClosed then ["STORE_CLOSED"] else []) ++
    (if quotaFull then ["QUOTA_FULL"] else []) ++
    (if satBlock then ["SATURDAY_BLOCK"] else []) ++
    (if masterBlock then ["MASTER_WORKING_BLOCK"] else [])
  let mine := myLeaveFor ctx date
  { date := date
    remainingQuota := remainingQuota
    assistantSupply := assistantSupplySumOn ctx date
    rookieSupply := rookieSupplySumOn ctx date
    designerDemand := designerDemandSumOn ctx date
    safetyFactor := ctx.safetyFactor
    selectable := selectable
    reasons := reasons
    myLeaveStatus := mine.map (fun lr =>
      if lr.status = LeaveStatus.APPROVED then LeaveStatus.APPROVED
      else LeaveStatus.PENDING)
    myLeaveCancelable := (mine.map (fun lr =>
      !(lr.status = LeaveStatus.APPROVED) &&
      lr.createdByUserId = some ctx.requester.userId)).getD false
    offUsers := offUsersFor ctx date }

/-- The one-time part of getMonthAvailability: config reads, roster
partition, month-scoped queries and the phase-window flags. -/
def buildCtx (env : Env) (db : DB) (storeId storeTimeZone month : String)
    (requester : Requester) : MonthCtx :=
  let phase1Start := getNumberConfig db.config storeId ("phase1_start_day") 1
  let phase1End := getNumberConfig db.config storeId ("phase1_end_day") 5
  let phase2Start := getNumberConfig db.config storeId ("phase2_start_day") 6
  let phase2End := getNumberConfig db.config storeId ("phase2_end_day") 31
  let todayDay : ℚ := env.todayDayIn storeTimeZone
  let users := db.users.filter (fun u => u.storeId = storeId && u.active)
  let monthRows := db.leave.filter (fun lr =>
      lr.storeId = storeId && strStarts lr.date (month ++ "-") &&
      (lr.status = LeaveStatus.PENDING || lr.status = LeaveStatus.APPROVED))
  let blockIfMaster := getBooleanConfig db.config storeId ("assistant_block_if_master_working") true
  { month := month
    storeTimeZone := storeTimeZone
    requester := requester
    safetyFactor := getNumberConfig db.config storeId ("safety_factor") (11/10)
    assistantSupplyCfg := getNumberConfig db.config storeId ("assistant_supply") 1
    rookieSupportSupply := getNumberConfig db.config storeId ("rookie_support_supply") (7/10)
    rookieGuestSupply := getNumberConfig db.config storeId ("rookie_guest_supply") 0
    designerDefaultDemand := getNumberConfig db.config storeId ("designer_default_demand") 1
    closedDates :=
      (((getStringConfig db.config storeId ("closed_dates") "").data.splitOn
          (Char.ofNat 44)).map (fun cs => String.mk (charTrim cs))).filter isIsoDate
    closedWeekdays :=
      (((getStringConfig db.config storeId ("closed_weekdays") "").data.splitOn
          (Char.ofNat 44)).map (fun cs =>
            String.mk ((charTrim cs).map Char.toUpper))).filter (fun s =>
        ["SUN", "MON", "TUE", "WED", "THU", "FRI", "SAT"].contains s)
    assistantBlockSaturday := getBooleanConfig db.config storeId ("assistant_block_saturday") true
    assistantBlockIfMasterWorking := blockIfMaster
    rookieAnyBookingSupplyZero := getBooleanConfig db.config storeId ("rookie_any_booking_supply_zero") true
    inDesignerWindow := decide (phase1Start ≤ todayDay) && decide (todayDay ≤ phase1End)
    inAssistantWindow := decide (phase2Start ≤ todayDay) && decide (todayDay ≤ phase2End)
    assistants := users.filter (fun u => u.role = Role.ASSISTANT)
    rookies := users.filter (fun u => u.role = Role.ROOKIE)
    designers := users.filter (fun u => u.role = Role.DESIGNER)
    leaveRows := monthRows.map (fun lr =>
      let u := db.users.find? (fun u => u.id = lr.userId)
      { userId := lr.userId, date := lr.date, status := lr.status,
        createdByUserId := lr.createdByUserId,
        displayName := (u.map (fun u => u.displayName)).getD "",
        role := (u.map (fun u => u.role)).getD Role.MANAGER })
    monthOverrides := db.overrides.filter (fun o =>
      o.storeId = storeId && strStarts o.date (month ++ "-"))
    monthBookings := db.bookings.filter (fun b =>
      b.storeId = storeId && strStarts b.date (month ++ "-"))
    bindingsForAssistant :=
      if requester.role = Role.ASSISTANT && blockIfMaster then
        db.bindings.filter (fun b =>
          b.storeId = storeId && b.assistantId = requester.userId && b.active)
      else [] }

/-- The result of getMonthAvailability. -/
structure MonthAvailability where
  month : String
  days : List AvailabilityDay
deriving Repr

/-- getMonthAvailability: one AvailabilityDay per day 1..daysInMonth. -/
def getMonthAvailability (env : Env) (db : DB)
    (storeId storeTimeZone month : String) (requester : Requester) :
    MonthAvailability :=
  let ctx := buildCtx env db storeId storeTimeZone month requester
  { month := month
    days := (List.range' 1 (daysInMonth month)).map (mkDay env ctx) }

/- ---------- leave self request / cancel (the leave route) ---------- -/

/-- The authenticated user a route acts for (getCurrentUser result). -/
structure AuthUser where
  id : String
  storeId : String
  role : Role
deriving DecidableEq, Repr

/-- Fresh id for a created LeaveRequest row (cuid is modelled by a
counter). -/
def freshId (db : DB) : String :=
  "lr" ++ toString db.nextId

/-- prisma leaveRequest.update where id: rewrite the matching row. -/
def updateLeaveById (leave : List LeaveRequest) (id : String)
    (f : LeaveRequest → LeaveRequest) : List LeaveRequest :=
  leave.map (fun lr => if lr.id = id then f lr else lr)

/-- The responses of the self leave-request POST handler. -/
inductive PostResult where
  | invalidDate
  | alreadyRequested (statusFound : LeaveStatus)
  | storeNotFound
  | dateOutOfRange
  | notAllowed (reasons : List String)
  | ok (leaveRequest : LeaveRequest)
deriving DecidableEq, Repr

/-- One iteration of the mirror loop of the POST handler: skip the
binding when the assistant already has an active row for the date,
reuse a terminal row, else insert a fresh mirror row. -/
def mirrorStep (storeId designerId date parentId : String)
    (db : DB) (b : Binding) : DB :=
  match db.leave.find? (fun lr => lr.userId = b.assistantId && lr.date = date) with
  | some ae =>
    if isOffStatus ae.status then db
    else { db with leave := updateLeaveById db.leave ae.id (fun lr =>
      { lr with status := LeaveStatus.PENDING,
                source := LeaveSource.BINDING_MIRROR,
                createdByUserId := some designerId,
                linkedToId := some parentId }) }
  | none =>
    { db with
      leave := db.leave ++ [{
        id := freshId db, storeId := storeId, userId := b.assistantId,
        date := date, status := LeaveStatus.PENDING,
        source := LeaveSource.BINDING_MIRROR,
        createdByUserId := some designerId, linkedToId := some parentId }],
      nextId := db.nextId + 1 }

/-- The whole mirror loop over the designer's active bindings. -/
def mirrorLoop (storeId designerId date parentId : String)
    (db : DB) (bs : List Binding) : DB :=
  bs.foldl (mirrorStep storeId designerId date parentId) db

/-- The create-or-reuse expression of the POST handler for the
requester's own row: a CANCELED/REJECTED row found for the (user, date)
is reset to a PENDING SELF row in place, else a fresh PENDING SELF row
is inserted. -/
def selfParentStep (db : DB) (storeId userId date : String)
    (existingAny : Option LeaveRequest) : LeaveRequest × DB :=
  match existingAny with
  | some e =>
    ({ e with status := LeaveStatus.PENDING,
              source := LeaveSource.SELF,
              createdByUserId := some userId },
     { db with leave := updateLeaveById db.leave e.id (fun lr =>
         { lr with status := LeaveStatus.PENDING,
                   source := LeaveSource.SELF,
                   createdByUserId := some userId }) })
  | none =>
    let lr : LeaveRequest :=
      { id := freshId db, storeId := storeId, userId := userId,
        date := date, status := LeaveStatus.PENDING,
        source := LeaveSource.SELF,
        createdByUserId := some userId, linkedToId := none }
    (lr, { db with leave := db.leave ++ [lr], nextId := db.nextId + 1 })

/-- The POST handler of the self leave-request route: duplicate-active
check, store lookup, availability gate, create-or-reuse of the
requester's row, then the binding mirror loop for designers. -/
def leavePOST (env : Env) (db : DB) (user : AuthUser) (date : String) :
    PostResult × DB :=
  if !(isIsoDate date) then (PostResult.invalidDate, db) else
  let month := strTake date 7
  let existingAny := db.leave.find? (fun lr =>
      lr.userId = user.id && lr.date = date)
  if (existingAny.map (fun e => isOffStatus e.status)).getD false then
    (PostResult.alreadyRequested
      ((existingAny.map (fun e => e.status)).getD LeaveStatus.PENDING), db)
  else
    match db.stores.find? (fun s => s.id = user.storeId) with
    | none => (PostResult.storeNotFound, db)
    | some store =>
      let availability := getMonthAvailability env db store.id store.timezone
        month { userId := user.id, role := user.role }
      match availability.days.find? (fun day => day.date = date) with
      | none => (PostResult.dateOutOfRange, db)
      | some day =>
        if !day.selectable then (PostResult.notAllowed day.reasons, db)
        else
          let step := selfParentStep db store.id user.id date existingAny
          let parent := step.1
          let db1 := step.2
          let db2 :=
            if user.role = Role.DESIGNER &&
               getStringConfig db1.config store.id ("binding_mirror_leave")
                 "auto_create" = "auto_create" then
              mirrorLoop store.id user.id date parent.id db1
                (db1.bindings.filter (fun b =>
                  b.storeId = store.id && b.designerId = user.id && b.active))
            else db1
          (PostResult.ok parent, db2)

/-- The responses of the self leave-cancel DELETE handler. -/
inductive DeleteResult where
  | invalidDate
  | notFound
  | forbidden
  | notCancelable
  | ok
deriving DecidableEq, Repr

/-- The DELETE handler: cancel an own PENDING row and cascade CANCELED
to the PENDING mirrors the same creator produced. -/
def leaveDELETE (db : DB) (user : AuthUser) (date : String) :
    DeleteResult × DB :=
  if !(isIsoDate date) then (DeleteResult.invalidDate, db) else
  match db.leave.find? (fun lr =>
      lr.storeId = user.storeId && lr.userId = user.id && lr.date = date &&
      isOffStatus lr.status) with
  | none => (DeleteResult.notFound, db)
  | some existing =>
    if !(existing.createdByUserId = some user.id) then (DeleteResult.forbidden, db)
    else if !(existing.status = LeaveStatus.PENDING) then
      (DeleteResult.notCancelable, db)
    else
      let l1 := updateLeaveById db.leave existing.id (fun lr =>
        { lr with status := LeaveStatus.CANCELED })
      let l2 := l1.map (fun lr =>
        if lr.storeId = user.storeId && lr.linkedToId = some existing.id &&
           lr.status = LeaveStatus.PENDING &&
           lr.createdByUserId = some user.id then
          { lr with status := LeaveStatus.CANCELED }
        else lr)
      (DeleteResult.ok, { db with leave := l2 })

/- ---------- manager approval (the approval route and admin) ---------- -/

/-- The responses of the manager approval POST handler. -/
inductive ApproveResult where
  | forbidden
  | notFound
  | notPending
  | ok (leaveRequest : LeaveRequest)
deriving DecidableEq, Repr

/-- nextStatus of an approval action: REJECTED for REJECT, else
APPROVED. -/
def nextStatusOf (action : ApprovalAction) : LeaveStatus :=
  if action = ApprovalAction.REJECT then LeaveStatus.REJECTED
  else LeaveStatus.APPROVED

/-- The data of the parent update: only the status field changes. -/
def statusSet (s : LeaveStatus) (r : LeaveRequest) : LeaveRequest :=
  { r with status := s }

/-- The updateMany data of the mirror cascade: a row changes (to the
resulting status) exactly when its id is a linked mirror id and it is
still PENDING. -/
def cascadeStep (mirrorIds : List String) (s : LeaveStatus)
    (r : LeaveRequest) : LeaveRequest :=
  if mirrorIds.contains r.id && r.status = LeaveStatus.PENDING then
    { r with status := s }
  else r

/-- The transaction body shared by the approval route and the admin
setLeaveStatus action: set the parent's status, record the approval,
and cascade the resulting status to the still-PENDING linked mirrors. -/
def leaveStatusTxn (db : DB) (storeId managerId id : String)
    (action : ApprovalAction) (reason : Option String) : DB :=
  let nextStatus := nextStatusOf action
  let l1 := updateLeaveById db.leave id (statusSet nextStatus)
  let mirrorIds := (l1.filter (fun r => r.linkedToId = some id)).map (fun r => r.id)
  let l2 := l1.map (cascadeStep mirrorIds nextStatus)
  { db with
    leave := l2,
    approvals := db.approvals ++ [{
      storeId := storeId, leaveRequestId := id, managerId := managerId,
      action := action, reason := reason }] }

/-- The manager approval POST handler for a leave-request id. -/
def approvePOST (db : DB) (manager : AuthUser) (id : String)
    (action : ApprovalAction) (reason : Option String) : ApproveResult × DB :=
  if !(manager.role = Role.MANAGER) then (ApproveResult.forbidden, db) else
  match db.leave.find? (fun lr => lr.id = id && lr.storeId = manager.storeId) with
  | none => (ApproveResult.notFound, db)
  | some lr =>
    if !(lr.status = LeaveStatus.PENDING) then (ApproveResult.notPending, db)
    else
      (ApproveResult.ok { lr with status := nextStatusOf action },
       leaveStatusTxn db manager.storeId manager.id id action reason)

/-- The admin setLeaveStatus server action (same guards and the same
transaction, reason absent). -/
def setLeaveStatus (db : DB) (user : AuthUser) (id : String)
    (action : ApprovalAction) : DB :=
  if !(user.role = Role.MANAGER) then db else
  if id = "" then db else
  match db.leave.find? (fun lr => lr.id = id && lr.storeId = user.storeId) with
  | none => db
  | some lr =>
    if !(lr.status = LeaveStatus.PENDING) then db
    else leaveStatusTxn db user.storeId user.id id action none

/-- The admin createManagerLeave server action: force-approve leave for
a target user, reusing the existing row for the (user, date) when one
exists, else inserting an APPROVED row; an approval row is recorded. -/
def createManagerLeave (db : DB) (me : AuthUser) (userId date : String) : DB :=
  if !(me.role = Role.MANAGER) then db else
  if userId = "" || !(isIsoDate date) then db else
  match db.users.find? (fun u =>
      u.id = userId && u.storeId = me.storeId && u.active) with
  | none => db
  | some target =>
    match db.leave.find? (fun lr =>
        lr.storeId = me.storeId && lr.userId = target.id && lr.date = date) with
    | some existing =>
      { db with
        leave := updateLeaveById db.leave existing.id (fun lr =>
          { lr with status := LeaveStatus.APPROVED,
                    source := LeaveSource.MANAGER,
                    createdByUserId := some me.id }),
        approvals := db.approvals ++ [{
          storeId := me.storeId, leaveRequestId := existing.id,
          managerId := me.id, action := ApprovalAction.FORCE_APPROVE,
          reason := none }] }
    | none =>
      let lr : LeaveRequest :=
        { id := freshId db, storeId := me.storeId, userId := target.id,
          date := date, status := LeaveStatus.APPROVED,
          source := LeaveSource.MANAGER,
          createdByUserId := some me.id, linkedToId := none }
      { db with
        leave := db.leave ++ [lr],
        nextId := db.nextId + 1,
        approvals := db.approvals ++ [{
          storeId := me.storeId, leaveRequestId := lr.id,
          managerId := me.id, action := ApprovalAction.FORCE_APPROVE,
          reason := none }] }

/- ---------- supporting lemmas ---------- -/

theorem foldl_skip_add {α : Type} (off : α → Bool) (w : α → ℚ) :
    ∀ (l : List α) (init : ℚ),
      l.foldl (fun acc u => if off u then acc else acc + w u) init =
        init + ((l.filter (fun u => !off u)).map w).sum := by
  intro l
  induction l with
  | nil => simp
  | cons hd tl ih =>
    intro init
    by_cases h : off hd = true
    · simp [List.foldl, h, ih]
    · simp [List.foldl, h, ih, add_assoc]

theorem mem_days_iff (env : Env) (db : DB) (storeId tz month : String)
    (req : Requester) (day : AvailabilityDay) :
    day ∈ (getMonthAvailability env db storeId tz month req).days ↔
      ∃ d, d ∈ List.range' 1 (daysInMonth month) ∧
        day = mkDay env (buildCtx env db storeId tz month req) d := by
  simp [getMonthAvailability, List.mem_map, eq_comm]

theorem strStarts_dateFromMonthDay (month : String) (d : Nat) :
    strStarts (dateFromMonthDay month d) (month ++ "-") = true := by
  have h : (month ++ "-").data <+: (dateFromMonthDay month d).data := by
    have h2 : dateFromMonthDay month d = (month ++ "-") ++ pad2 d := by
      simp [dateFromMonthDay, String.ext_iff, List.append_assoc]
    rw [h2]
    exact ⟨(pad2 d).data, by simp⟩
  simpa [strStarts, List.isPrefixOf_iff_prefix] using h

/- ---------- the spec-side day formulas (for refinement claims) ---------- -/

/-- The active users of a role, as the engine partitions the roster. -/
def activeStaff (db : DB) (storeId : String) (r : Role) : List UserRow :=
  (db.users.filter (fun u => u.storeId = storeId && u.active)).filter
    (fun u => u.role = r)

/-- Whether the user is off (has a PENDING or APPROVED leave request in
the store) on the date — the spec's marked-off condition. -/
def offOnDate (db : DB) (storeId userId date : String) : Bool :=
  db.leave.any (fun lr =>
    lr.storeId = storeId && lr.userId = userId && lr.date = date &&
    isOffStatus lr.status)

/-- Whether the rookie has a booking in the store on the date. -/
def bookedOn (db : DB) (storeId rookieId date : String) : Bool :=
  db.bookings.any (fun b =>
    b.storeId = storeId && b.rookieId = rookieId && b.date = date)

/-- The designer's per-date demand override (last matching row, as the
Map built by the engine keeps the last write). -/
def overrideOn (db : DB) (storeId designerId date : String) : Option ℚ :=
  ((db.overrides.filter (fun o =>
      o.storeId = storeId && o.designerId = designerId && o.date = date)).getLast?).map
    (fun o => o.demand)

/-- Modelled from the spec: the day's assistant supply as §8 states it —
sum over active non-off assistants of (per-user baseSupply override,
else global assistant_supply). -/
def specAssistantSupply (db : DB) (storeId date : String) : ℚ :=
  (((activeStaff db storeId Role.ASSISTANT).filter
      (fun u => !offOnDate db storeId u.id date)).map
    (fun u => u.baseSupply.getD
      (getNumberConfig db.config storeId ("assistant_supply") 1))).sum

/-- Modelled from the spec: the day's rookie supply as §8 states it —
sum over active non-off rookies of (rookie_guest_supply when booked and
rookie_any_booking_supply_zero, regardless of the baseSupply override;
else baseSupply override, else rookie_support_supply). -/
def specRookieSupply (db : DB) (storeId date : String) : ℚ :=
  (((activeStaff db storeId Role.ROOKIE).filter
      (fun u => !offOnDate db storeId u.id date)).map
    (fun u =>
      if bookedOn db storeId u.id date &&
         getBooleanConfig db.config storeId ("rookie_any_booking_supply_zero") true then
        getNumberConfig db.config storeId ("rookie_guest_supply") 0
      else u.baseSupply.getD
        (getNumberConfig db.config storeId ("rookie_support_supply") (7/10)))).sum

/-- Modelled from the spec: the day's designer demand as §8 states it —
sum over active non-off designers of (per-date override, else per-user
baseDemand, else designer_default_demand). -/
def specDesignerDemand (db : DB) (storeId date : String) : ℚ :=
  (((activeStaff db storeId Role.DESIGNER).filter
      (fun u => !offOnDate db storeId u.id date)).map
    (fun u => (overrideOn db storeId u.id date).getD
      (u.baseDemand.getD
        (getNumberConfig db.config storeId ("designer_default_demand") 1)))).sum

/- ---------- bridges between the engine context and the store ---------- -/

theorem isOffOn_buildCtx (env : Env) (db : DB) (storeId tz month : String)
    (req : Requester) (uid date : String)
    (hdate : strStarts date (month ++ "-") = true) :
    isOffOn (buildCtx env db storeId tz month req) uid date =
      offOnDate db storeId uid date := by
  rw [Bool.eq_iff_iff]
  simp only [isOffOn, offPairs, buildCtx, offOnDate, List.contains_iff_exists_mem_beq,
    List.mem_map, List.mem_filter, List.any_eq_true, beq_iff_eq]
  constructor
  · rintro ⟨p, ⟨x, ⟨⟨lr, ⟨hlr, hfilt⟩, hx⟩, hoff⟩, hpx⟩, hpe⟩
    refine ⟨lr, hlr, ?_⟩
    simp only [Bool.and_eq_true, decide_eq_true_eq] at hfilt ⊢
    have hu : lr.userId = uid ∧ lr.date = date := by
      rw [← hx] at hpx
      rw [← hpe] at hpx
      simpa [Prod.ext_iff, eq_comm] using hpx
    refine ⟨⟨⟨hfilt.1.1, hu.1⟩, hu.2⟩, ?_⟩
    rw [← hx] at hoff
    simpa using hoff
  · rintro ⟨lr, hlr, hcond⟩
    simp only [Bool.and_eq_true, decide_eq_true_eq] at hcond
    obtain ⟨⟨⟨hsid, huid⟩, hd⟩, hoff⟩ := hcond
    refine ⟨(uid, date), ⟨_, ⟨⟨lr, ⟨hlr, ?_⟩, rfl⟩, ?_⟩, ?_⟩, rfl⟩
    · simp only [Bool.and_eq_true, decide_eq_true_eq]
      refine ⟨⟨hsid, hd ▸ hdate⟩, ?_⟩
      simpa [isOffStatus] using hoff
    · simpa using hoff
    · simp [huid, hd]

theorem hasBooking_buildCtx (env : Env) (db : DB) (storeId tz month : String)
    (req : Requester) (uid date : String)
    (hdate : strStarts date (month ++ "-") = true) :
    hasBooking (buildCtx env db storeId tz month req) uid date =
      bookedOn db storeId uid date := by
  rw [Bool.eq_iff_iff]
  simp only [hasBooking, buildCtx, bookedOn, List.any_eq_true, List.mem_filter,
    Bool.and_eq_true, decide_eq_true_eq]
  constructor
  · rintro ⟨b, ⟨hb, hsid, hm⟩, hrid, hd⟩
    exact ⟨b, hb, ⟨hsid, hrid⟩, hd⟩
  · rintro ⟨b, hb, ⟨hsid, hrid⟩, hd⟩
    exact ⟨b, ⟨hb, hsid, hd ▸ hdate⟩, hrid, hd⟩

theorem demandOverrideFor_buildCtx (env : Env) (db : DB)
    (storeId tz month : String) (req : Requester) (uid date : String)
    (hdate : strStarts date (month ++ "-") = true) :
    demandOverrideFor (buildCtx env db storeId tz month req) uid date =
      overrideOn db storeId uid date := by
  simp only [demandOverrideFor, buildCtx, overrideOn, List.filter_filter]
  congr 2
  apply List.filter_congr
  intro o _
  rw [Bool.eq_iff_iff]
  simp only [Bool.and_eq_true, decide_eq_true_eq]
  constructor
  · rintro ⟨⟨hdid, hd⟩, hsid, hm⟩
    exact ⟨⟨hsid, hdid⟩, hd⟩
  · rintro ⟨⟨hsid, hdid⟩, hd⟩
    exact ⟨⟨hdid, hd⟩, hsid, hd ▸ hdate⟩

theorem assistants_buildCtx (env : Env) (db : DB) (storeId tz month : String)
    (req : Requester) :
    (buildCtx env db storeId tz month req).assistants =
      activeStaff db storeId Role.ASSISTANT := rfl

theorem rookies_buildCtx (env : Env) (db : DB) (storeId tz month : String)
    (req : Requester) :
    (buildCtx env db storeId tz month req).rookies =
      activeStaff db storeId Role.ROOKIE := rfl

theorem designers_buildCtx (env : Env) (db : DB) (storeId tz month : String)
    (req : Requester) :
    (buildCtx env db storeId tz month req).designers =
      activeStaff db storeId Role.DESIGNER := rfl

/- ---------- day projections ---------- -/

theorem mkDay_date (env : Env) (ctx : MonthCtx) (d : Nat) :
    (mkDay env ctx d).date = dateFromMonthDay ctx.month d := rfl

theorem mkDay_remainingQuota (env : Env) (ctx : MonthCtx) (d : Nat) :
    (mkDay env ctx d).remainingQuota =
      remainingQuotaOn ctx (dateFromMonthDay ctx.month d) := rfl

theorem mkDay_assistantSupply (env : Env) (ctx : MonthCtx) (d : Nat) :
    (mkDay env ctx d).assistantSupply =
      assistantSupplySumOn ctx (dateFromMonthDay ctx.month d) := rfl

theorem mkDay_rookieSupply (env : Env) (ctx : MonthCtx) (d : Nat) :
    (mkDay env ctx d).rookieSupply =
      rookieSupplySumOn ctx (dateFromMonthDay ctx.month d) := rfl

theorem mkDay_designerDemand (env : Env) (ctx : MonthCtx) (d : Nat) :
    (mkDay env ctx d).designerDemand =
      designerDemandSumOn ctx (dateFromMonthDay ctx.month d) := rfl

theorem mkDay_safetyFactor (env : Env) (ctx : MonthCtx) (d : Nat) :
    (mkDay env ctx d).safetyFactor = ctx.safetyFactor := rfl

theorem mkDay_selectable (env : Env) (ctx : MonthCtx) (d : Nat) :
    (mkDay env ctx d).selectable =
      (!phaseLocked ctx &&
       !isStoreClosedOn env ctx (dateFromMonthDay ctx.month d) &&
       !(decide (remainingQuotaOn ctx (dateFromMonthDay ctx.month d) < 0) &&
         !(ctx.requester.role = Role.DESIGNER)) &&
       !satBlockOn env ctx (dateFromMonthDay ctx.month d) &&
       !masterBlockOn ctx (dateFromMonthDay ctx.month d)) := rfl

theorem mkDay_reasons (env : Env) (ctx : MonthCtx) (d : Nat) :
    (mkDay env ctx d).reasons =
      ((if phaseLocked ctx then ["PHASE_LOCK"] else []) ++
       (if isStoreClosedOn env ctx (dateFromMonthDay ctx.month d)
        then ["STORE_CLOSED"] else []) ++
       (if decide (remainingQuotaOn ctx (dateFromMonthDay ctx.month d) < 0)
        then ["QUOTA_FULL"] else []) ++
       (if satBlockOn env ctx (dateFromMonthDay ctx.month d)
        then ["SATURDAY_BLOCK"] else []) ++
       (if masterBlockOn ctx (dateFromMonthDay ctx.month d)
        then ["MASTER_WORKING_BLOCK"] else [])) := rfl

theorem mem_cond_singleton {α : Type} [DecidableEq α] (c : Bool) (x a : α) :
    (a ∈ if c then [x] else []) ↔ (c = true ∧ a = x) := by
  cases c <;> simp

/- ---------- day sums versus the spec formulas ---------- -/

theorem assistantSupplySumOn_spec (env : Env) (db : DB)
    (storeId tz month : String) (req : Requester) (date : String)
    (hdate : strStarts date (month ++ "-") = true) :
    assistantSupplySumOn (buildCtx env db storeId tz month req) date =
      specAssistantSupply db storeId date := by
  unfold assistantSupplySumOn specAssistantSupply
  rw [foldl_skip_add, zero_add, assistants_buildCtx]
  have hfil : (activeStaff db storeId Role.ASSISTANT).filter
      (fun u => !isOffOn (buildCtx env db storeId tz month req) u.id date) =
      (activeStaff db storeId Role.ASSISTANT).filter
      (fun u => !offOnDate db storeId u.id date) := by
    apply List.filter_congr
    intro u _
    rw [isOffOn_buildCtx env db storeId tz month req u.id date hdate]
  rw [hfil]
  rfl

theorem rookieSupplySumOn_spec (env : Env) (db : DB)
    (storeId tz month : String) (req : Requester) (date : String)
    (hdate : strStarts date (month ++ "-") = true) :
    rookieSupplySumOn (buildCtx env db storeId tz month req) date =
      specRookieSupply db storeId date := by
  unfold rookieSupplySumOn specRookieSupply
  have hb : (fun (acc : ℚ) (u : UserRow) =>
      if isOffOn (buildCtx env db storeId tz month req) u.id date then acc
      else if hasBooking (buildCtx env db storeId tz month req) u.id date &&
              (buildCtx env db storeId tz month req).rookieAnyBookingSupplyZero
           then acc + (buildCtx env db storeId tz month req).rookieGuestSupply
           else acc + u.baseSupply.getD
                  (buildCtx env db storeId tz month req).rookieSupportSupply) =
      (fun (acc : ℚ) (u : UserRow) =>
      if isOffOn (buildCtx env db storeId tz month req) u.id date then acc
      else acc +
        (if hasBooking (buildCtx env db storeId tz month req) u.id date &&
            (buildCtx env db storeId tz month req).rookieAnyBookingSupplyZero
         then (buildCtx env db storeId tz month req).rookieGuestSupply
         else u.baseSupply.getD
                (buildCtx env db storeId tz month req).rookieSupportSupply)) := by
    funext acc u
    by_cases h1 : isOffOn (buildCtx env db storeId tz month req) u.id date
    · simp [h1]
    · by_cases h2 : hasBooking (buildCtx env db storeId tz month req) u.id date &&
          (buildCtx env db storeId tz month req).rookieAnyBookingSupplyZero
      · simp [h1, h2]
      · simp [h1, h2]
  rw [hb, foldl_skip_add, zero_add, rookies_buildCtx]
  have hfil : (activeStaff db storeId Role.ROOKIE).filter
      (fun u => !isOffOn (buildCtx env db storeId tz month req) u.id date) =
      (activeStaff db storeId Role.ROOKIE).filter
      (fun u => !offOnDate db storeId u.id date) := by
    apply List.filter_congr
    intro u _
    rw [isOffOn_buildCtx env db storeId tz month req u.id date hdate]
  rw [hfil]
  congr 1
  apply List.map_congr_left
  intro u _
  rw [hasBooking_buildCtx env db storeId tz month req u.id date hdate]
  rfl

theorem designerDemandSumOn_spec (env : Env) (db : DB)
    (storeId tz month : String) (req : Requester) (date : String)
    (hdate : strStarts date (month ++ "-") = true) :
    designerDemandSumOn (buildCtx env db storeId tz month req) date =
      specDesignerDemand db storeId date := by
  unfold designerDemandSumOn specDesignerDemand
  rw [foldl_skip_add, zero_add, designers_buildCtx]
  have hfil : (activeStaff db storeId Role.DESIGNER).filter
      (fun u => !isOffOn (buildCtx env db storeId tz month req) u.id date) =
      (activeStaff db storeId Role.DESIGNER).filter
      (fun u => !offOnDate db storeId u.id date) := by
    apply List.filter_congr
    intro u _
    rw [isOffOn_buildCtx env db storeId tz month req u.id date hdate]
  rw [hfil]
  congr 1
  apply List.map_congr_left
  intro u _
  rw [demandOverrideFor_buildCtx env db storeId tz month req u.id date hdate]
  rfl

/- ---------- claims C1 and C8 ---------- -/

/-- C1: for every day of the computed month, remainingQuota equals
assistantSupply + rookieSupply - designerDemand * safetyFactor exactly,
and the three totals are sums over active non-off users only: an
assistant, rookie or designer with a PENDING or APPROVED leave request
on that date is excluded from (contributes zero to) that day's totals,
as the spec formulas specAssistantSupply / specRookieSupply /
specDesignerDemand state. -/
theorem quota_identity_and_off_users_excluded (env : Env) (db : DB)
    (storeId tz month : String) (req : Requester) (day : AvailabilityDay)
    (hday : day ∈ (getMonthAvailability env db storeId tz month req).days) :
    day.remainingQuota = day.assistantSupply + day.rookieSupply -
        day.designerDemand * day.safetyFactor ∧
    day.assistantSupply = specAssistantSupply db storeId day.date ∧
    day.rookieSupply = specRookieSupply db storeId day.date ∧
    day.designerDemand = specDesignerDemand db storeId day.date := by
  obtain ⟨d, _, rfl⟩ := (mem_days_iff env db storeId tz month req day).mp hday
  have hdate : strStarts
      (dateFromMonthDay (buildCtx env db storeId tz month req).month d)
      (month ++ "-") = true := strStarts_dateFromMonthDay month d
  refine ⟨rfl, ?_, ?_, ?_⟩
  · rw [mkDay_assistantSupply, mkDay_date]
    exact assistantSupplySumOn_spec env db storeId tz month req _ hdate
  · rw [mkDay_rookieSupply, mkDay_date]
    exact rookieSupplySumOn_spec env db storeId tz month req _ hdate
  · rw [mkDay_designerDemand, mkDay_date]
    exact designerDemandSumOn_spec env db storeId tz month req _ hdate

/-- C8: for every day, the rookie supply total is the sum, over active
non-off rookies, of: rookie_guest_supply when the rookie has a booking
that day and rookie_any_booking_supply_zero is true (the per-user
baseSupply override is ignored in that case); otherwise the baseSupply
override when set, else rookie_support_supply — the specRookieSupply
formula. -/
theorem rookie_booking_supply_rule (env : Env) (db : DB)
    (storeId tz month : String) (req : Requester) (day : AvailabilityDay)
    (hday : day ∈ (getMonthAvailability env db storeId tz month req).days) :
    day.rookieSupply = specRookieSupply db storeId day.date := by
  obtain ⟨d, _, rfl⟩ := (mem_days_iff env db storeId tz month req day).mp hday
  rw [mkDay_rookieSupply, mkDay_date]
  exact rookieSupplySumOn_spec env db storeId tz month req _
    (strStarts_dateFromMonthDay month d)

/- ---------- reason membership ---------- -/

theorem requester_buildCtx (env : Env) (db : DB) (storeId tz month : String)
    (req : Requester) :
    (buildCtx env db storeId tz month req).requester = req := rfl

theorem inDesignerWindow_buildCtx (env : Env) (db : DB)
    (storeId tz month : String) (req : Requester) :
    (buildCtx env db storeId tz month req).inDesignerWindow =
      (decide (getNumberConfig db.config storeId ("phase1_start_day") 1 ≤
          (env.todayDayIn tz : ℚ)) &&
       decide ((env.todayDayIn tz : ℚ) ≤
          getNumberConfig db.config storeId ("phase1_end_day") 5)) := rfl

theorem inAssistantWindow_buildCtx (env : Env) (db : DB)
    (storeId tz month : String) (req : Requester) :
    (buildCtx env db storeId tz month req).inAssistantWindow =
      (decide (getNumberConfig db.config storeId ("phase2_start_day") 6 ≤
          (env.todayDayIn tz : ℚ)) &&
       decide ((env.todayDayIn tz : ℚ) ≤
          getNumberConfig db.config storeId ("phase2_end_day") 31)) := rfl

theorem quotaFull_mem_reasons (env : Env) (ctx : MonthCtx) (d : Nat) :
    ("QUOTA_FULL" ∈ (mkDay env ctx d).reasons) ↔
      remainingQuotaOn ctx (dateFromMonthDay ctx.month d) < 0 := by
  rw [mkDay_reasons]
  simp [mem_cond_singleton]

theorem phaseLock_mem_reasons (env : Env) (ctx : MonthCtx) (d : Nat) :
    ("PHASE_LOCK" ∈ (mkDay env ctx d).reasons) ↔ phaseLocked ctx = true := by
  rw [mkDay_reasons]
  simp [mem_cond_singleton]

theorem phaseLock_not_selectable (env : Env) (ctx : MonthCtx) (d : Nat)
    (h : phaseLocked ctx = true) : (mkDay env ctx d).selectable = false := by
  rw [mkDay_selectable, h]
  rfl

/- ---------- claims C2 and C3 ---------- -/

/-- C2: for every day, QUOTA_FULL is present exactly when remainingQuota
is strictly negative (sign-based); for a DESIGNER requester the quota
does not enter the selectable verdict (selectable is exactly the
phase/closure verdict, so QUOTA_FULL is advisory), while for an
ASSISTANT or ROOKIE requester a negative remaining quota forces
selectable = false. -/
theorem quota_full_reason_rule (env : Env) (db : DB)
    (storeId tz month : String) (req : Requester) (day : AvailabilityDay)
    (hday : day ∈ (getMonthAvailability env db storeId tz month req).days) :
    (("QUOTA_FULL" ∈ day.reasons) ↔ day.remainingQuota < 0) ∧
    (req.role = Role.DESIGNER →
      day.selectable =
        (!phaseLocked (buildCtx env db storeId tz month req) &&
         !isStoreClosedOn env (buildCtx env db storeId tz month req) day.date)) ∧
    ((req.role = Role.ASSISTANT ∨ req.role = Role.ROOKIE) →
      day.remainingQuota < 0 → day.selectable = false) := by
  obtain ⟨d, _, rfl⟩ := (mem_days_iff env db storeId tz month req day).mp hday
  refine ⟨?_, ?_, ?_⟩
  · rw [mkDay_remainingQuota]
    exact quotaFull_mem_reasons env _ d
  · intro hrole
    rw [mkDay_selectable, mkDay_date]
    simp only [satBlockOn, masterBlockOn, requester_buildCtx, hrole]
    simp
  · intro hrole hq
    rw [mkDay_remainingQuota] at hq
    rw [mkDay_selectable]
    have hd : decide (remainingQuotaOn (buildCtx env db storeId tz month req)
        (dateFromMonthDay (buildCtx env db storeId tz month req).month d) < 0)
        = true := by simpa using hq
    rw [hd]
    rcases hrole with h | h <;>
      simp [requester_buildCtx, h]

/-- C3: phase gating is evaluated against today's day-of-month in the
store timezone (never against the target date), so it holds or fails
uniformly for every day of the requested month: a DESIGNER sees
PHASE_LOCK exactly when today is outside both the phase-1 and the
phase-2 windows; an ASSISTANT or ROOKIE exactly when today is outside
the phase-2 window; and a PHASE_LOCK day is never selectable. -/
theorem phase_lock_rule (env : Env) (db : DB)
    (storeId tz month : String) (req : Requester) (day : AvailabilityDay)
    (hday : day ∈ (getMonthAvailability env db storeId tz month req).days) :
    ((req.role = Role.DESIGNER →
        (("PHASE_LOCK" ∈ day.reasons) ↔
          ¬((getNumberConfig db.config storeId ("phase1_start_day") 1 ≤
               (env.todayDayIn tz : ℚ) ∧
             (env.todayDayIn tz : ℚ) ≤
               getNumberConfig db.config storeId ("phase1_end_day") 5) ∨
            (getNumberConfig db.config storeId ("phase2_start_day") 6 ≤
               (env.todayDayIn tz : ℚ) ∧
             (env.todayDayIn tz : ℚ) ≤
               getNumberConfig db.config storeId ("phase2_end_day") 31)))) ∧
     ((req.role = Role.ASSISTANT ∨ req.role = Role.ROOKIE) →
        (("PHASE_LOCK" ∈ day.reasons) ↔
          ¬(getNumberConfig db.config storeId ("phase2_start_day") 6 ≤
              (env.todayDayIn tz : ℚ) ∧
            (env.todayDayIn tz : ℚ) ≤
              getNumberConfig db.config storeId ("phase2_end_day") 31))) ∧
     (("PHASE_LOCK" ∈ day.reasons) → day.selectable = false)) := by
  obtain ⟨d, _, rfl⟩ := (mem_days_iff env db storeId tz month req day).mp hday
  refine ⟨?_, ?_, ?_⟩
  · intro hrole
    rw [phaseLock_mem_reasons]
    simp only [phaseLocked, requester_buildCtx, hrole,
      inDesignerWindow_buildCtx, inAssistantWindow_buildCtx]
    simp only [Bool.and_eq_true, Bool.not_eq_true', Bool.and_eq_false_iff,
      decide_eq_false_iff_not, decide_eq_true_eq]
    tauto
  · intro hrole
    rw [phaseLock_mem_reasons]
    rcases hrole with h | h <;>
    · simp only [phaseLocked, requester_buildCtx, h, inAssistantWindow_buildCtx]
      simp only [Bool.not_eq_true', Bool.and_eq_false_iff,
        decide_eq_false_iff_not, decide_eq_true_eq]
      tauto
  · intro hmem
    exact phaseLock_not_selectable env _ d
      ((phaseLock_mem_reasons env _ d).mp hmem)

/- ---------- membership helpers for the mutation maps ---------- -/

theorem mem_updateLeaveById_ne (l : List LeaveRequest) (id : String)
    (f : LeaveRequest → LeaveRequest) (m : LeaveRequest) (hm : m ∈ l)
    (hne : ¬ m.id = id) : m ∈ updateLeaveById l id f := by
  unfold updateLeaveById
  simpa [hne] using
    List.mem_map_of_mem (fun lr => if lr.id = id then f lr else lr) hm

theorem mem_updateLeaveById_eq (l : List LeaveRequest) (id : String)
    (f : LeaveRequest → LeaveRequest) (m : LeaveRequest) (hm : m ∈ l)
    (heq : m.id = id) : f m ∈ updateLeaveById l id f := by
  unfold updateLeaveById
  simpa [heq] using
    List.mem_map_of_mem (fun lr => if lr.id = id then f lr else lr) hm

theorem nextStatusOf_ne_pending (action : ApprovalAction) :
    ¬ nextStatusOf action = LeaveStatus.PENDING := by
  unfold nextStatusOf
  split <;> simp

theorem leaveStatusTxn_leave (db : DB) (sid mid id : String)
    (action : ApprovalAction) (reason : Option String) :
    (leaveStatusTxn db sid mid id action reason).leave =
      (updateLeaveById db.leave id (statusSet (nextStatusOf action))).map
        (cascadeStep
          (((updateLeaveById db.leave id (statusSet (nextStatusOf action))).filter
              (fun r => r.linkedToId = some id)).map (fun r => r.id))
          (nextStatusOf action)) := rfl

theorem leaveStatusTxn_approvals (db : DB) (sid mid id : String)
    (action : ApprovalAction) (reason : Option String) :
    (leaveStatusTxn db sid mid id action reason).approvals =
      db.approvals ++ [{ storeId := sid, leaveRequestId := id,
                         managerId := mid, action := action,
                         reason := reason }] := rfl

/- ---------- claims C6, C7 and C9 ---------- -/

/-- C6: when a manager approves or rejects a PENDING request through the
approval route (one transaction: parent status update, approval row
insertion, mirror cascade), every linked mirror that is still PENDING
gets the same resulting status (nextStatusOf: REJECTED for REJECT,
APPROVED for APPROVE or FORCE_APPROVE), mirrors no longer PENDING are
not changed, and the approval row is recorded. -/
theorem approve_cascades_to_pending_mirrors (db : DB) (manager : AuthUser)
    (id : String) (action : ApprovalAction) (reason : Option String)
    (lr2 : LeaveRequest) (db2 : DB)
    (h : approvePOST db manager id action reason = (ApproveResult.ok lr2, db2)) :
    (∀ m ∈ db.leave, m.linkedToId = some id →
      m.status = LeaveStatus.PENDING →
      { m with status := nextStatusOf action } ∈ db2.leave) ∧
    (∀ m ∈ db.leave, m.linkedToId = some id →
      m.status ≠ LeaveStatus.PENDING → m.id ≠ id → m ∈ db2.leave) ∧
    lr2 ∈ db2.leave ∧
    lr2.status = nextStatusOf action ∧
    db2.approvals = db.approvals ++ [{
      storeId := manager.storeId, leaveRequestId := id,
      managerId := manager.id, action := action, reason := reason }] := by
  unfold approvePOST at h
  split at h
  · simp at h
  · split at h
    · simp at h
    next lr hfind =>
      split at h
      · simp at h
      next hpend =>
        simp only [Prod.mk.injEq, ApproveResult.ok.injEq] at h
        obtain ⟨hlr2, hdb2⟩ := h
        subst hdb2
        refine ⟨?_, ?_, ?_, ?_, ?_⟩
        · intro m hm hlink hst
          rw [leaveStatusTxn_leave]
          by_cases hid : m.id = id
          · have h1 := mem_updateLeaveById_eq db.leave id
              (statusSet (nextStatusOf action)) m hm hid
            have h2 := List.mem_map_of_mem (cascadeStep
              (((updateLeaveById db.leave id (statusSet (nextStatusOf action))).filter
                  (fun r => r.linkedToId = some id)).map (fun r => r.id))
              (nextStatusOf action)) h1
            have h3 : cascadeStep
                (((updateLeaveById db.leave id (statusSet (nextStatusOf action))).filter
                    (fun r => r.linkedToId = some id)).map (fun r => r.id))
                (nextStatusOf action) (statusSet (nextStatusOf action) m) =
                statusSet (nextStatusOf action) m := by
              simp [cascadeStep, statusSet, nextStatusOf_ne_pending action]
            rw [h3] at h2
            exact h2
          · have h1 := mem_updateLeaveById_ne db.leave id
              (statusSet (nextStatusOf action)) m hm hid
            have hcont : ((((updateLeaveById db.leave id
                (statusSet (nextStatusOf action))).filter
                  (fun r => r.linkedToId = some id)).map (fun r => r.id)).contains
                m.id) = true := by
              simp only [List.contains_iff_exists_mem_beq, List.mem_map,
                List.mem_filter, beq_iff_eq]
              exact ⟨m.id, ⟨m, ⟨h1, by simp [hlink]⟩, rfl⟩, rfl⟩
            have h2 := List.mem_map_of_mem (cascadeStep
              (((updateLeaveById db.leave id (statusSet (nextStatusOf action))).filter
                  (fun r => r.linkedToId = some id)).map (fun r => r.id))
              (nextStatusOf action)) h1
            have h3 : cascadeStep
                (((updateLeaveById db.leave id (statusSet (nextStatusOf action))).filter
                    (fun r => r.linkedToId = some id)).map (fun r => r.id))
                (nextStatusOf action) m = { m with status := nextStatusOf action } := by
              unfold cascadeStep
              rw [hcont, hst]
              simp
            rw [h3] at h2
            exact h2
        · intro m hm hlink hst hid
          rw [leaveStatusTxn_leave]
          have h1 := mem_updateLeaveById_ne db.leave id
            (statusSet (nextStatusOf action)) m hm hid
          have h2 := List.mem_map_of_mem (cascadeStep
            (((updateLeaveById db.leave id (statusSet (nextStatusOf action))).filter
                (fun r => r.linkedToId = some id)).map (fun r => r.id))
            (nextStatusOf action)) h1
          have h3 : cascadeStep
              (((updateLeaveById db.leave id (statusSet (nextStatusOf action))).filter
                  (fun r => r.linkedToId = some id)).map (fun r => r.id))
              (nextStatusOf action) m = m := by
            simp [cascadeStep, hst]
          rw [h3] at h2
          exact h2
        · rw [leaveStatusTxn_leave]
          have hlrmem : lr ∈ db.leave := List.mem_of_find?_eq_some hfind
          have hlrid : lr.id = id := by
            have := List.find?_some hfind
            simp only [Bool.and_eq_true, decide_eq_true_eq] at this
            exact this.1
          have h1 := mem_updateLeaveById_eq db.leave id
            (statusSet (nextStatusOf action)) lr hlrmem hlrid
          have h2 := List.mem_map_of_mem (cascadeStep
            (((updateLeaveById db.leave id (statusSet (nextStatusOf action))).filter
                (fun r => r.linkedToId = some id)).map (fun r => r.id))
            (nextStatusOf action)) h1
          have h3 : cascadeStep
              (((updateLeaveById db.leave id (statusSet (nextStatusOf action))).filter
                  (fun r => r.linkedToId = some id)).map (fun r => r.id))
              (nextStatusOf action) (statusSet (nextStatusOf action) lr) =
              statusSet (nextStatusOf action) lr := by
            simp [cascadeStep, statusSet, nextStatusOf_ne_pending action]
          rw [h3] at h2
          rw [← hlr2]
          exact h2
        · rw [← hlr2]
        · rw [leaveStatusTxn_approvals]

/-- C7: a successful self-cancel of an own self-created PENDING request
rewrites the stored table pointwise: the request itself and exactly the
linked PENDING mirror rows created by the same user become CANCELED,
and every other row — including independently created requests by other
users on the same date — is returned unchanged. -/
theorem cancel_blast_radius (db : DB) (user : AuthUser) (date : String)
    (e : LeaveRequest)
    (hiso : isIsoDate date = true)
    (hfind : db.leave.find? (fun lr =>
        lr.storeId = user.storeId && lr.userId = user.id && lr.date = date &&
        isOffStatus lr.status) = some e)
    (hcb : e.createdByUserId = some user.id)
    (hst : e.status = LeaveStatus.PENDING) :
    leaveDELETE db user date =
      (DeleteResult.ok,
       { db with leave := db.leave.map (fun r =>
           if r.id = e.id then { r with status := LeaveStatus.CANCELED }
           else if r.storeId = user.storeId && r.linkedToId = some e.id &&
                   r.status = LeaveStatus.PENDING &&
                   r.createdByUserId = some user.id then
             { r with status := LeaveStatus.CANCELED }
           else r) }) := by
  unfold leaveDELETE
  rw [hiso, hfind]
  simp only [Bool.not_true, Bool.false_eq_true, if_false, hcb, hst, decide_True,
    Bool.not_false, if_true]
  refine congrArg (Prod.mk DeleteResult.ok) ?_
  congr 1
  unfold updateLeaveById
  rw [List.map_map]
  apply List.map_congr_left
  intro r _
  by_cases hid : r.id = e.id
  · have h1 : (fun lr => if lr.id = e.id
        then { lr with status := LeaveStatus.CANCELED } else lr) r =
        ({ r with status := LeaveStatus.CANCELED } : LeaveRequest) := by
      simp [hid]
    simp only [Function.comp_apply, h1]
    rw [if_pos hid]
    rw [if_neg (by simp)]
  · have h1 : (fun lr => if lr.id = e.id
        then { lr with status := LeaveStatus.CANCELED } else lr) r = r := by
      simp [hid]
    simp only [Function.comp_apply, h1]
    rw [if_neg hid]

/-- The storage invariant of the unique index on (userId, date): no two
rows of the LeaveRequest table share a user and a date. -/
def uniquePairs (leave : List LeaveRequest) : Prop :=
  leave.Pairwise (fun a b => ¬(a.userId = b.userId ∧ a.date = b.date))

theorem find?_user_date_eq (l : List LeaveRequest) (hu : uniquePairs l)
    (lr : LeaveRequest) (hmem : lr ∈ l) (uid dt : String)
    (huid : lr.userId = uid) (hd : lr.date = dt) :
    l.find? (fun r => r.userId = uid && r.date = dt) = some lr := by
  induction l with
  | nil => cases hmem
  | cons x tl ih =>
    rcases List.mem_cons.mp hmem with heq | hmem2
    · subst heq
      rw [List.find?_cons_of_pos _ (by simp [huid, hd])]
    · have hrel := (List.pairwise_cons.mp hu).1 lr hmem2
      rw [List.find?_cons_of_neg _ (by
        simp only [Bool.and_eq_true, decide_eq_true_eq, not_and]
        intro h1 h2
        exact absurd ⟨h1.trans huid.symm, h2.trans hd.symm⟩ hrel)]
      exact ih (List.pairwise_cons.mp hu).2 hmem2

/-- C9: under the unique-index invariant, a self leave request for a
(user, date) that already has an active (PENDING or APPROVED) record is
answered with the ALREADY_REQUESTED conflict and the stored state is
returned unchanged — nothing is created or modified. -/
theorem duplicate_active_request_conflict (env : Env) (db : DB)
    (user : AuthUser) (date : String) (lr : LeaveRequest)
    (hu : uniquePairs db.leave)
    (hmem : lr ∈ db.leave) (huid : lr.userId = user.id) (hd : lr.date = date)
    (hoff : isOffStatus lr.status = true)
    (hiso : isIsoDate date = true) :
    leavePOST env db user date = (PostResult.alreadyRequested lr.status, db) := by
  unfold leavePOST
  rw [hiso]
  rw [find?_user_date_eq db.leave hu lr hmem user.id date huid hd]
  simp [hoff]

/- ---------- preservation of the unique (userId, date) index ---------- -/

theorem uniquePairs_map (l : List LeaveRequest) (g : LeaveRequest → LeaveRequest)
    (hg : ∀ r, (g r).userId = r.userId ∧ (g r).date = r.date)
    (hu : uniquePairs l) : uniquePairs (l.map g) := by
  unfold uniquePairs at *
  refine List.Pairwise.map g ?_ hu
  intro a b hab hc
  exact hab ⟨((hg a).1).symm.trans (hc.1.trans (hg b).1),
             ((hg a).2).symm.trans (hc.2.trans (hg b).2)⟩

theorem uniquePairs_append (l : List LeaveRequest) (x : LeaveRequest)
    (hu : uniquePairs l)
    (hx : ∀ r ∈ l, ¬(r.userId = x.userId ∧ r.date = x.date)) :
    uniquePairs (l ++ [x]) := by
  unfold uniquePairs
  rw [List.pairwise_append]
  refine ⟨hu, List.pairwise_singleton _ _, ?_⟩
  intro a ha b hb
  have hbx : b = x := by simpa using hb
  subst hbx
  exact hx a ha

theorem uniquePairs_updateLeaveById (l : List LeaveRequest) (id : String)
    (f : LeaveRequest → LeaveRequest)
    (hf : ∀ r, (f r).userId = r.userId ∧ (f r).date = r.date)
    (hu : uniquePairs l) : uniquePairs (updateLeaveById l id f) := by
  unfold updateLeaveById
  refine uniquePairs_map l _ ?_ hu
  intro r
  by_cases h : r.id = id
  · simp only [h, if_true]
    exact hf r
  · simp [h]

theorem uniquePairs_mirrorStep (sid did date pid : String) (db : DB)
    (b : Binding) (hu : uniquePairs db.leave) :
    uniquePairs (mirrorStep sid did date pid db b).leave := by
  unfold mirrorStep
  split
  next ae hfind =>
    split
    · exact hu
    · refine uniquePairs_updateLeaveById db.leave ae.id _ ?_ hu
      intro r
      exact ⟨rfl, rfl⟩
  next hfind =>
    refine uniquePairs_append db.leave _ hu ?_
    intro r hr hc
    have := List.find?_eq_none.mp hfind r hr
    simp only [Bool.and_eq_true, decide_eq_true_eq] at this
    exact this ⟨hc.1, hc.2⟩

theorem uniquePairs_mirrorLoop (sid did date pid : String) :
    ∀ (bs : List Binding) (db : DB), uniquePairs db.leave →
      uniquePairs (mirrorLoop sid did date pid db bs).leave := by
  intro bs
  induction bs with
  | nil => intro db hu; exact hu
  | cons b tl ih =>
    intro db hu
    exact ih _ (uniquePairs_mirrorStep sid did date pid db b hu)

theorem selfParentStep_bindings (db : DB) (storeId userId date : String)
    (ex : Option LeaveRequest) :
    (selfParentStep db storeId userId date ex).2.bindings = db.bindings := by
  cases ex <;> rfl

theorem uniquePairs_selfParentStep (db : DB) (storeId userId date : String)
    (hu : uniquePairs db.leave) :
    uniquePairs (selfParentStep db storeId userId date
      (db.leave.find? (fun lr =>
        lr.userId = userId && lr.date = date))).2.leave := by
  cases hfind : db.leave.find? (fun lr =>
      lr.userId = userId && lr.date = date) with
  | some e =>
    unfold selfParentStep
    refine uniquePairs_updateLeaveById db.leave e.id _ ?_ hu
    intro r
    exact ⟨rfl, rfl⟩
  | none =>
    unfold selfParentStep
    refine uniquePairs_append db.leave _ hu ?_
    intro r hr hc
    have := List.find?_eq_none.mp hfind r hr
    simp only [Bool.and_eq_true, decide_eq_true_eq] at this
    exact this ⟨hc.1, hc.2⟩

theorem uniquePairs_leavePOST (env : Env) (db : DB) (user : AuthUser)
    (date : String) (hu : uniquePairs db.leave) :
    uniquePairs (leavePOST env db user date).2.leave := by
  unfold leavePOST
  dsimp only
  split
  · exact hu
  · split
    · exact hu
    · split
      · exact hu
      next store hstore =>
        split
        · exact hu
        next day hday =>
          split
          · exact hu
          · have h1 := uniquePairs_selfParentStep db store.id user.id date hu
            split
            · exact uniquePairs_mirrorLoop _ _ _ _ _ _ h1
            · exact h1

theorem uniquePairs_leaveDELETE (db : DB) (user : AuthUser) (date : String)
    (hu : uniquePairs db.leave) :
    uniquePairs (leaveDELETE db user date).2.leave := by
  unfold leaveDELETE
  split
  · exact hu
  · split
    · exact hu
    next e hfind =>
      split
      · exact hu
      · split
        · exact hu
        · refine uniquePairs_map _ _ ?_
            (uniquePairs_updateLeaveById db.leave e.id _ (fun r => ⟨rfl, rfl⟩) hu)
          intro r
          split
          · exact ⟨rfl, rfl⟩
          · exact ⟨rfl, rfl⟩

theorem uniquePairs_leaveStatusTxn (db : DB) (sid mid id : String)
    (action : ApprovalAction) (reason : Option String)
    (hu : uniquePairs db.leave) :
    uniquePairs (leaveStatusTxn db sid mid id action reason).leave := by
  rw [leaveStatusTxn_leave]
  refine uniquePairs_map _ _ ?_
    (uniquePairs_updateLeaveById db.leave id _ (fun r => ⟨rfl, rfl⟩) hu)
  intro r
  unfold cascadeStep
  split
  · exact ⟨rfl, rfl⟩
  · exact ⟨rfl, rfl⟩

theorem uniquePairs_approvePOST (db : DB) (manager : AuthUser) (id : String)
    (action : ApprovalAction) (reason : Option String)
    (hu : uniquePairs db.leave) :
    uniquePairs (approvePOST db manager id action reason).2.leave := by
  unfold approvePOST
  split
  · exact hu
  · split
    · exact hu
    · split
      · exact hu
      · exact uniquePairs_leaveStatusTxn db manager.storeId manager.id id
          action reason hu

theorem uniquePairs_setLeaveStatus (db : DB) (user : AuthUser) (id : String)
    (action : ApprovalAction) (hu : uniquePairs db.leave) :
    uniquePairs (setLeaveStatus db user id action).leave := by
  unfold setLeaveStatus
  split
  · exact hu
  · split
    · exact hu
    · split
      · exact hu
      · split
        · exact hu
        · exact uniquePairs_leaveStatusTxn db user.storeId user.id id
            action none hu

theorem uniquePairs_createManagerLeave (db : DB) (me : AuthUser)
    (uid date : String) (hu : uniquePairs db.leave)
    (hscope : ∀ lr ∈ db.leave, ∀ u ∈ db.users, lr.userId = u.id →
      lr.storeId = u.storeId) :
    uniquePairs (createManagerLeave db me uid date).leave := by
  unfold createManagerLeave
  split
  · exact hu
  · split
    · exact hu
    · split
      · exact hu
      next target htarget =>
        have htmem : target ∈ db.users := List.mem_of_find?_eq_some htarget
        have htprop := List.find?_some htarget
        simp only [Bool.and_eq_true, decide_eq_true_eq] at htprop
        split
        next existing hfind =>
          refine uniquePairs_updateLeaveById db.leave existing.id _ ?_ hu
          intro r
          exact ⟨rfl, rfl⟩
        next hfind =>
          refine uniquePairs_append db.leave _ hu ?_
          intro r hr hc
          have hnone := List.find?_eq_none.mp hfind r hr
          simp only [Bool.and_eq_true, decide_eq_true_eq] at hnone
          have hrsid : r.storeId = me.storeId := by
            have h2 := hscope r hr target htmem hc.1
            rw [h2, htprop.1.2]
          exact hnone ⟨⟨hrsid, hc.1⟩, hc.2⟩

/-- C10: in every state satisfying the unique-index invariant — at most
one LeaveRequest row per (userId, date) of ANY status, the guarantee of
the LeaveRequest_userId_date_key unique index — each operation (self
request with its mirror loop, self cancel, the approval route, the
admin status action and the manager force-leave) returns a state that
still satisfies it: re-requests and force-approvals reuse the existing
row in place and creations only happen when no row exists for the pair.
(For the manager action, leave rows are assumed to live in their user's
store, as every creation path guarantees.) -/
theorem unique_user_date_invariant_preserved (env : Env) (db : DB)
    (user usr mgr me : AuthUser) (date ddate id uid mdate : String)
    (action action2 : ApprovalAction) (reason : Option String)
    (hu : uniquePairs db.leave)
    (hscope : ∀ lr ∈ db.leave, ∀ u ∈ db.users, lr.userId = u.id →
      lr.storeId = u.storeId) :
    uniquePairs (leavePOST env db user date).2.leave ∧
    uniquePairs (leaveDELETE db usr ddate).2.leave ∧
    uniquePairs (approvePOST db mgr id action reason).2.leave ∧
    uniquePairs (setLeaveStatus db mgr id action2).leave ∧
    uniquePairs (createManagerLeave db me uid mdate).leave :=
  ⟨uniquePairs_leavePOST env db user date hu,
   uniquePairs_leaveDELETE db usr ddate hu,
   uniquePairs_approvePOST db mgr id action reason hu,
   uniquePairs_setLeaveStatus db mgr id action2 hu,
   uniquePairs_createManagerLeave db me uid mdate hu hscope⟩

/- ---------- the mirror loop invariant (claim C4) ---------- -/

/-- A PENDING BINDING_MIRROR row for the assistant on the date, created
by the designer and linked to the parent request. -/
def mirroredRow (leave : List LeaveRequest) (a date designerId parentId : String) :
    Prop :=
  ∃ lr ∈ leave, lr.userId = a ∧ lr.date = date ∧
    lr.status = LeaveStatus.PENDING ∧ lr.source = LeaveSource.BINDING_MIRROR ∧
    lr.createdByUserId = some designerId ∧ lr.linkedToId = some parentId

/-- No active (PENDING or APPROVED) row for the user on the date. -/
def noActiveRow (leave : List LeaveRequest) (a date : String) : Prop :=
  ∀ lr ∈ leave, lr.userId = a → lr.date = date → isOffStatus lr.status = false

theorem mirroredRow_mirrorStep (sid did date pid : String) (db : DB)
    (b : Binding) (a : String)
    (h : mirroredRow db.leave a date did pid) :
    mirroredRow (mirrorStep sid did date pid db b).leave a date did pid := by
  obtain ⟨lr, hmem, h1, h2, h3, h4, h5, h6⟩ := h
  unfold mirrorStep
  cases hfind : db.leave.find? (fun r => r.userId = b.assistantId && r.date = date) with
  | some ae =>
    dsimp only
    by_cases hoffb : isOffStatus ae.status = true
    · rw [if_pos hoffb]
      exact ⟨lr, hmem, h1, h2, h3, h4, h5, h6⟩
    · rw [if_neg hoffb]
      by_cases hid : lr.id = ae.id
      · exact ⟨_, mem_updateLeaveById_eq db.leave ae.id _ lr hmem hid,
          h1, h2, rfl, rfl, rfl, rfl⟩
      · exact ⟨lr, mem_updateLeaveById_ne db.leave ae.id _ lr hmem hid,
          h1, h2, h3, h4, h5, h6⟩
  | none =>
    exact ⟨lr, List.mem_append_left _ hmem, h1, h2, h3, h4, h5, h6⟩

theorem mirrorStep_establishes (sid did date pid : String) (db : DB)
    (b : Binding) (hno : noActiveRow db.leave b.assistantId date) :
    mirroredRow (mirrorStep sid did date pid db b).leave b.assistantId date
      did pid := by
  unfold mirrorStep
  cases hfind : db.leave.find? (fun r => r.userId = b.assistantId && r.date = date) with
  | some ae =>
    dsimp only
    have haemem : ae ∈ db.leave := List.mem_of_find?_eq_some hfind
    have haep := List.find?_some hfind
    simp only [Bool.and_eq_true, decide_eq_true_eq] at haep
    have hoffb : ¬ isOffStatus ae.status = true := by
      rw [hno ae haemem haep.1 haep.2]
      simp
    rw [if_neg hoffb]
    exact ⟨_, mem_updateLeaveById_eq db.leave ae.id _ ae haemem rfl,
      haep.1, haep.2, rfl, rfl, rfl, rfl⟩
  | none =>
    refine ⟨_, List.mem_append_right _ (List.mem_singleton_self _),
      rfl, rfl, rfl, rfl, rfl, rfl⟩

theorem mirrorStep_inv (sid did date pid : String) (db : DB) (b : Binding)
    (a : String)
    (h : noActiveRow db.leave a date ∨ mirroredRow db.leave a date did pid) :
    noActiveRow (mirrorStep sid did date pid db b).leave a date ∨
      mirroredRow (mirrorStep sid did date pid db b).leave a date did pid := by
  rcases h with hno | hmir
  · unfold mirrorStep
    cases hfind : db.leave.find? (fun r => r.userId = b.assistantId && r.date = date) with
    | some ae =>
      dsimp only
      by_cases hoffb : isOffStatus ae.status = true
      · rw [if_pos hoffb]
        exact Or.inl hno
      · rw [if_neg hoffb]
        by_cases hex : ∃ r ∈ db.leave, r.userId = a ∧ r.date = date ∧ r.id = ae.id
        · obtain ⟨r, hr, hru, hrd, hri⟩ := hex
          exact Or.inr ⟨_, mem_updateLeaveById_eq db.leave ae.id _ r hr hri,
            hru, hrd, rfl, rfl, rfl, rfl⟩
        · refine Or.inl ?_
          intro lr2 hlr2 huid hdate2
          unfold updateLeaveById at hlr2
          obtain ⟨r, hr, hrim⟩ := List.mem_map.mp hlr2
          by_cases hid : r.id = ae.id
          · exfalso
            rw [if_pos hid] at hrim
            apply hex
            refine ⟨r, hr, ?_, ?_, hid⟩
            · rw [← hrim] at huid
              exact huid
            · rw [← hrim] at hdate2
              exact hdate2
          · rw [if_neg hid] at hrim
            rw [← hrim] at huid hdate2 ⊢
            exact hno r hr huid hdate2
    | none =>
      dsimp only
      by_cases ha : b.assistantId = a
      · refine Or.inr ⟨_, List.mem_append_right _ (List.mem_singleton_self _),
          ha, rfl, rfl, rfl, rfl, rfl⟩
      · refine Or.inl ?_
        intro lr2 hlr2 huid hdate2
        rcases List.mem_append.mp hlr2 with hl | hr
        · exact hno lr2 hl huid hdate2
        · exfalso
          have h7 := List.mem_singleton.mp hr
          rw [h7] at huid
          exact ha huid
  · exact Or.inr (mirroredRow_mirrorStep sid did date pid db b a hmir)

theorem mirrorLoop_mirrored_mono (sid did date pid : String) :
    ∀ (bs : List Binding) (db : DB) (a : String),
      mirroredRow db.leave a date did pid →
      mirroredRow (mirrorLoop sid did date pid db bs).leave a date did pid := by
  intro bs
  induction bs with
  | nil => intro db a h; exact h
  | cons b tl ih =>
    intro db a h
    exact ih _ a (mirroredRow_mirrorStep sid did date pid db b a h)

theorem mirrorLoop_mirrors (sid did date pid : String) :
    ∀ (bs : List Binding) (db : DB) (a : String),
      (noActiveRow db.leave a date ∨ mirroredRow db.leave a date did pid) →
      a ∈ bs.map (fun b => b.assistantId) →
      mirroredRow (mirrorLoop sid did date pid db bs).leave a date did pid := by
  intro bs
  induction bs with
  | nil =>
    intro db a _ hmem
    simp at hmem
  | cons b tl ih =>
    intro db a hinv hmem
    rcases List.mem_cons.mp (by simpa using hmem :
        a ∈ b.assistantId :: tl.map (fun b => b.assistantId)) with heq | hmem2
    · subst heq
      rcases hinv with hno | hmir
      · exact mirrorLoop_mirrored_mono sid did date pid tl _ _
          (mirrorStep_establishes sid did date pid db b hno)
      · exact mirrorLoop_mirrored_mono sid did date pid tl _ _
          (mirroredRow_mirrorStep sid did date pid db b _ hmir)
    · exact ih _ a (mirrorStep_inv sid did date pid db b a hinv) hmem2

theorem selfParentStep_config (db : DB) (storeId userId date : String)
    (ex : Option LeaveRequest) :
    (selfParentStep db storeId userId date ex).2.config = db.config := by
  cases ex <;> rfl

theorem selfParentStep_noActive (db : DB) (storeId userId date a : String)
    (hnodup : (db.leave.map (fun lr => lr.id)).Nodup)
    (hna : ¬ a = userId)
    (hno : noActiveRow db.leave a date) :
    noActiveRow (selfParentStep db storeId userId date
      (db.leave.find? (fun lr =>
        lr.userId = userId && lr.date = date))).2.leave a date := by
  cases hfind : db.leave.find? (fun lr =>
      lr.userId = userId && lr.date = date) with
  | some e =>
    unfold selfParentStep
    intro lr2 hlr2 huid hdate2
    unfold updateLeaveById at hlr2
    obtain ⟨r, hr, hrim⟩ := List.mem_map.mp hlr2
    have hemem : e ∈ db.leave := List.mem_of_find?_eq_some hfind
    have hep := List.find?_some hfind
    simp only [Bool.and_eq_true, decide_eq_true_eq] at hep
    by_cases hid : r.id = e.id
    · exfalso
      have hre : r = e := List.inj_on_of_nodup_map hnodup hr hemem hid
      rw [if_pos hid] at hrim
      rw [← hrim] at huid
      have hru : r.userId = a := huid
      apply hna
      rw [← hru, hre, hep.1]
    · rw [if_neg hid] at hrim
      rw [← hrim] at huid hdate2 ⊢
      exact hno r hr huid hdate2
  | none =>
    unfold selfParentStep
    dsimp only
    intro lr2 hlr2 huid hdate2
    rcases List.mem_append.mp hlr2 with hl | hr
    · exact hno lr2 hl huid hdate2
    · exfalso
      have h7 := List.mem_singleton.mp hr
      rw [h7] at huid
      exact hna huid.symm

/-- C4 (amended): when a DESIGNER self-requests a selectable date and
binding_mirror_leave resolves to auto_create, every active binding of
the designer whose bound assistant has no active (PENDING or APPROVED)
request for that date leaves the assistant with a mirrored PENDING
request — source BINDING_MIRROR, created by the designer, linked to the
designer's request (reusing the assistant's terminal row in place when
one exists); a binding whose assistant already has an active request on
the date is skipped, as the counterexample shows. -/
theorem designer_mirror_creation_amended (env : Env) (db : DB)
    (user : AuthUser) (date : String) (b : Binding) (store : Store)
    (day : AvailabilityDay)
    (hiso : isIsoDate date = true)
    (hrole : user.role = Role.DESIGNER)
    (hnodup : (db.leave.map (fun lr => lr.id)).Nodup)
    (hnoactSelf : noActiveRow db.leave user.id date)
    (hb : b ∈ db.bindings) (hbsid : b.storeId = user.storeId)
    (hbdid : b.designerId = user.id) (hbact : b.active = true)
    (hna : ¬ b.assistantId = user.id)
    (hnoactA : noActiveRow db.leave b.assistantId date)
    (hpolicy : getStringConfig db.config user.storeId ("binding_mirror_leave")
      "auto_create" = "auto_create")
    (hstore : db.stores.find? (fun s => s.id = user.storeId) = some store)
    (hday : (getMonthAvailability env db store.id store.timezone
        (strTake date 7) { userId := user.id, role := user.role }).days.find?
        (fun day => day.date = date) = some day)
    (hsel : day.selectable = true) :
    ∃ p : LeaveRequest,
      (leavePOST env db user date).1 = PostResult.ok p ∧
      mirroredRow (leavePOST env db user date).2.leave b.assistantId date
        user.id p.id := by
  have hsid : store.id = user.storeId := by
    have := List.find?_some hstore
    simpa using this
  have hguard : (Option.map (fun e => isOffStatus e.status)
      (db.leave.find? (fun lr =>
        lr.userId = user.id && lr.date = date))).getD false = false := by
    cases hf : db.leave.find? (fun lr =>
        lr.userId = user.id && lr.date = date) with
    | none => rfl
    | some e =>
      have hm := List.mem_of_find?_eq_some hf
      have hp := List.find?_some hf
      simp only [Bool.and_eq_true, decide_eq_true_eq] at hp
      simp [hnoactSelf e hm hp.1 hp.2]
  unfold leavePOST
  dsimp only
  rw [hiso, hstore, hguard]
  simp only [Bool.not_true, Bool.false_eq_true, if_false]
  rw [hday]
  dsimp only
  rw [hsel]
  simp only [Bool.not_true, Bool.false_eq_true, if_false]
  rw [selfParentStep_config, hsid, hpolicy, hrole]
  rw [if_pos (show (decide (Role.DESIGNER = Role.DESIGNER) &&
    decide (("auto_create" : String) = "auto_create")) = true by simp)]
  rw [selfParentStep_bindings]
  refine ⟨_, rfl, ?_⟩
  apply mirrorLoop_mirrors
  · exact Or.inl (selfParentStep_noActive db user.storeId user.id date
      b.assistantId hnodup hna hnoactA)
  · refine List.mem_map.mpr ⟨b, List.mem_filter.mpr ⟨hb, ?_⟩, rfl⟩
    simp [hbsid, hbdid, hbact]

/- ---------- record reuse (claim C5) ---------- -/

/-- The number of rows stored for the (userId, date) pair. -/
def pairCount (leave : List LeaveRequest) (uid dt : String) : Nat :=
  (leave.filter (fun lr => lr.userId = uid && lr.date = dt)).length

theorem pairCount_map (l : List LeaveRequest) (g : LeaveRequest → LeaveRequest)
    (hg : ∀ r, (g r).userId = r.userId ∧ (g r).date = r.date)
    (uid dt : String) : pairCount (l.map g) uid dt = pairCount l uid dt := by
  unfold pairCount
  induction l with
  | nil => rfl
  | cons hd tl ih =>
    have hpred : (decide ((g hd).userId = uid) && decide ((g hd).date = dt)) =
        (decide (hd.userId = uid) && decide (hd.date = dt)) := by
      rw [(hg hd).1, (hg hd).2]
    simp only [List.map_cons, List.filter_cons, hpred]
    cases hc : (decide (hd.userId = uid) && decide (hd.date = dt)) with
    | true => simp [ih]
    | false => simp [ih]

theorem pairCount_updateLeaveById (l : List LeaveRequest) (id : String)
    (f : LeaveRequest → LeaveRequest)
    (hf : ∀ r, (f r).userId = r.userId ∧ (f r).date = r.date)
    (uid dt : String) :
    pairCount (updateLeaveById l id f) uid dt = pairCount l uid dt := by
  unfold updateLeaveById
  refine pairCount_map l _ ?_ uid dt
  intro r
  by_cases h : r.id = id
  · simp only [h, if_true]
    exact hf r
  · simp [h]

theorem pairCount_append_single (l : List LeaveRequest) (x : LeaveRequest)
    (uid dt : String) (hx : (x.userId = uid && x.date = dt) = false) :
    pairCount (l ++ [x]) uid dt = pairCount l uid dt := by
  unfold pairCount
  rw [List.filter_append]
  have h : List.filter (fun lr => lr.userId = uid && lr.date = dt) [x] = [] := by
    simp only [List.filter, hx]
  rw [h, List.append_nil]

theorem mirrorStep_pairCount (sid did date pid : String) (db : DB)
    (b : Binding) (u : String)
    (hex : ∃ r ∈ db.leave, r.userId = u ∧ r.date = date) :
    pairCount (mirrorStep sid did date pid db b).leave u date =
        pairCount db.leave u date ∧
      ∃ r ∈ (mirrorStep sid did date pid db b).leave,
        r.userId = u ∧ r.date = date := by
  obtain ⟨r0, hr0, hu0, hd0⟩ := hex
  unfold mirrorStep
  cases hfind : db.leave.find? (fun r => r.userId = b.assistantId && r.date = date) with
  | some ae =>
    dsimp only
    by_cases hoffb : isOffStatus ae.status = true
    · rw [if_pos hoffb]
      exact ⟨rfl, r0, hr0, hu0, hd0⟩
    · rw [if_neg hoffb]
      dsimp only
      constructor
      · exact pairCount_updateLeaveById db.leave ae.id (fun lr =>
          { lr with status := LeaveStatus.PENDING,
                    source := LeaveSource.BINDING_MIRROR,
                    createdByUserId := some did,
                    linkedToId := some pid }) (fun r => ⟨rfl, rfl⟩) u date
      · by_cases hid : r0.id = ae.id
        · exact ⟨_, mem_updateLeaveById_eq db.leave ae.id _ r0 hr0 hid, hu0, hd0⟩
        · exact ⟨r0, mem_updateLeaveById_ne db.leave ae.id _ r0 hr0 hid, hu0, hd0⟩
  | none =>
    dsimp only
    have hne : ¬ b.assistantId = u := by
      intro heq
      have := List.find?_eq_none.mp hfind r0 hr0
      simp only [Bool.and_eq_true, decide_eq_true_eq] at this
      exact this ⟨hu0.trans heq.symm, hd0⟩
    constructor
    · refine pairCount_append_single db.leave _ u date ?_
      simp [hne]
    · exact ⟨r0, List.mem_append_left _ hr0, hu0, hd0⟩

theorem mirrorLoop_pairCount (sid did date pid : String) :
    ∀ (bs : List Binding) (db : DB) (u : String),
      (∃ r ∈ db.leave, r.userId = u ∧ r.date = date) →
      pairCount (mirrorLoop sid did date pid db bs).leave u date =
        pairCount db.leave u date := by
  intro bs
  induction bs with
  | nil => intro db u _; rfl
  | cons b tl ih =>
    intro db u hex
    obtain ⟨hcnt, hex2⟩ := mirrorStep_pairCount sid did date pid db b u hex
    have hstep : mirrorLoop sid did date pid db (b :: tl) =
        mirrorLoop sid did date pid (mirrorStep sid did date pid db b) tl := rfl
    rw [hstep, ih _ u hex2, hcnt]

/-- C5 (amended): APPROVED, REJECTED and CANCELED end a record's life
only with respect to the status-transition operations — manager
approval/rejection and self-cancel (with their cascades) never modify a
record that is not PENDING — but a later request for the same user and
date is served by reusing the record in place, not by creating a new
one: self re-request over a CANCELED/REJECTED record answers with the
same record id reset to PENDING SELF and leaves the number of rows for
that (user, date) unchanged, and manager force-approval rewrites the
existing record in place to APPROVED MANAGER. -/
theorem terminal_records_reused_in_place :
    (∀ (env : Env) (db : DB) (user : AuthUser) (date : String)
       (e : LeaveRequest),
      db.leave.find? (fun lr => lr.userId = user.id && lr.date = date) = some e →
      (e.status = LeaveStatus.CANCELED ∨ e.status = LeaveStatus.REJECTED) →
      ∀ p, (leavePOST env db user date).1 = PostResult.ok p →
        (p.id = e.id ∧ p.status = LeaveStatus.PENDING ∧
         p.source = LeaveSource.SELF) ∧
        pairCount (leavePOST env db user date).2.leave user.id date =
          pairCount db.leave user.id date) ∧
    (∀ (db : DB) (me : AuthUser) (uid date : String) (target : UserRow)
       (existing : LeaveRequest),
      me.role = Role.MANAGER → ¬ uid = "" → isIsoDate date = true →
      db.users.find? (fun u =>
        u.id = uid && u.storeId = me.storeId && u.active) = some target →
      db.leave.find? (fun lr =>
        lr.storeId = me.storeId && lr.userId = target.id && lr.date = date) =
        some existing →
      createManagerLeave db me uid date =
        { db with
          leave := updateLeaveById db.leave existing.id (fun lr =>
            { lr with status := LeaveStatus.APPROVED,
                      source := LeaveSource.MANAGER,
                      createdByUserId := some me.id }),
          approvals := db.approvals ++ [{
            storeId := me.storeId, leaveRequestId := existing.id,
            managerId := me.id, action := ApprovalAction.FORCE_APPROVE,
            reason := none }] }) ∧
    (∀ (db : DB) (mgr : AuthUser) (id : String) (action : ApprovalAction)
       (reason : Option String),
      (db.leave.map (fun lr => lr.id)).Nodup →
      ∀ r ∈ db.leave, ¬ r.status = LeaveStatus.PENDING →
        r ∈ (approvePOST db mgr id action reason).2.leave) ∧
    (∀ (db : DB) (usr : AuthUser) (ddate : String),
      (db.leave.map (fun lr => lr.id)).Nodup →
      ∀ r ∈ db.leave, ¬ r.status = LeaveStatus.PENDING →
        r ∈ (leaveDELETE db usr ddate).2.leave) := by
  refine ⟨?_, ?_, ?_, ?_⟩
  · intro env db user date e hfind hterm p hok
    have hep := List.find?_some hfind
    simp only [Bool.and_eq_true, decide_eq_true_eq] at hep
    cases hpost : leavePOST env db user date with
    | mk res db2 =>
      rw [hpost] at hok
      dsimp only at hok ⊢
      unfold leavePOST at hpost
      dsimp only at hpost
      rw [hfind] at hpost
      split at hpost
      · simp only [Prod.mk.injEq] at hpost
        rw [← hpost.1] at hok
        exact PostResult.noConfusion hok
      · split at hpost
        · simp only [Prod.mk.injEq] at hpost
          rw [← hpost.1] at hok
          exact PostResult.noConfusion hok
        next store hstore =>
          split at hpost
          · simp only [Prod.mk.injEq] at hpost
            rw [← hpost.1] at hok
            exact PostResult.noConfusion hok
          next day hday =>
            split at hpost
            · simp only [Prod.mk.injEq] at hpost
              rw [← hpost.1] at hok
              exact PostResult.noConfusion hok
            next hsel =>
              split at hpost
              · simp only [Prod.mk.injEq] at hpost
                rw [← hpost.1] at hok
                exact PostResult.noConfusion hok
              next hsel2 =>
                simp only [Prod.mk.injEq] at hpost
                obtain ⟨hres, hdb2⟩ := hpost
                rw [← hres] at hok
                unfold selfParentStep at hok hdb2
                dsimp only at hok hdb2
                replace hok := PostResult.ok.inj hok
                constructor
                · rw [← hok]
                  exact ⟨rfl, rfl, rfl⟩
                · rw [← hdb2]
                  have hrow : ∃ r ∈ updateLeaveById db.leave e.id (fun lr =>
                      { lr with status := LeaveStatus.PENDING,
                                source := LeaveSource.SELF,
                                createdByUserId := some user.id }),
                      r.userId = user.id ∧ r.date = date := by
                    refine ⟨_, mem_updateLeaveById_eq db.leave e.id _ e
                      (List.mem_of_find?_eq_some hfind) rfl, ?_, ?_⟩
                    · exact hep.1
                    · exact hep.2
                  have hcnt : pairCount (updateLeaveById db.leave e.id (fun lr =>
                      { lr with status := LeaveStatus.PENDING,
                                source := LeaveSource.SELF,
                                createdByUserId := some user.id })) user.id date =
                      pairCount db.leave user.id date :=
                    pairCount_updateLeaveById db.leave e.id (fun lr =>
                      { lr with status := LeaveStatus.PENDING,
                                source := LeaveSource.SELF,
                                createdByUserId := some user.id })
                      (fun r => ⟨rfl, rfl⟩) user.id date
                  split
                  · rw [mirrorLoop_pairCount _ _ _ _ _ _ _ hrow]
                    exact hcnt
                  · exact hcnt
  · intro db me uid date target existing hrole hne hiso htarget hfind
    unfold createManagerLeave
    rw [hrole]
    rw [if_neg (by simp)]
    have hcond : (decide (uid = "") || !isIsoDate date) = false := by
      rw [hiso]
      simp [hne]
    rw [hcond]
    rw [if_neg (by simp)]
    rw [htarget]
    dsimp only
    rw [hfind]
  · intro db mgr id action reason hnodup r hr hrst
    unfold approvePOST
    split
    · exact hr
    · split
      · exact hr
      next lr hfind =>
        split
        · exact hr
        next hpend =>
          dsimp only
          rw [leaveStatusTxn_leave]
          have hlrp : lr.status = LeaveStatus.PENDING := by
            by_contra hc
            simp [hc] at hpend
          have hlrid : lr.id = id := by
            have := List.find?_some hfind
            simp only [Bool.and_eq_true, decide_eq_true_eq] at this
            exact this.1
          have hrid : ¬ r.id = id := by
            intro hc
            have hre : r = lr := List.inj_on_of_nodup_map hnodup hr
              (List.mem_of_find?_eq_some hfind) (hc.trans hlrid.symm)
            rw [hre] at hrst
            exact hrst hlrp
          have h1 := mem_updateLeaveById_ne db.leave id
            (statusSet (nextStatusOf action)) r hr hrid
          have h2 := List.mem_map_of_mem (cascadeStep
            (((updateLeaveById db.leave id (statusSet (nextStatusOf action))).filter
                (fun x => x.linkedToId = some id)).map (fun x => x.id))
            (nextStatusOf action)) h1
          have h3 : cascadeStep
              (((updateLeaveById db.leave id (statusSet (nextStatusOf action))).filter
                  (fun x => x.linkedToId = some id)).map (fun x => x.id))
              (nextStatusOf action) r = r := by
            unfold cascadeStep
            rw [if_neg]
            simp [hrst]
          rw [h3] at h2
          exact h2
  · intro db usr ddate hnodup r hr hrst
    unfold leaveDELETE
    split
    · exact hr
    · split
      · exact hr
      next e hfind =>
        split
        · exact hr
        · split
          · exact hr
          next hcb hpend =>
            dsimp only
            have hep := List.find?_some hfind
            simp only [Bool.and_eq_true, decide_eq_true_eq] at hep
            have hest : e.status = LeaveStatus.PENDING := by
              by_contra hc
              simp [hc] at hpend
            have hrid : ¬ r.id = e.id := by
              intro hc
              have hre : r = e := List.inj_on_of_nodup_map hnodup hr
                (List.mem_of_find?_eq_some hfind) hc
              rw [hre] at hrst
              exact hrst hest
            have h1 := mem_updateLeaveById_ne db.leave e.id
              (fun lr => { lr with status := LeaveStatus.CANCELED }) r hr hrid
            have h2 := List.mem_map_of_mem (fun lr =>
              if lr.storeId = usr.storeId && lr.linkedToId = some e.id &&
                 lr.status = LeaveStatus.PENDING &&
                 lr.createdByUserId = some usr.id then
                { lr with status := LeaveStatus.CANCELED }
              else lr) h1
            have h3 : (fun lr =>
                if lr.storeId = usr.storeId && lr.linkedToId = some e.id &&
                   lr.status = LeaveStatus.PENDING &&
                   lr.createdByUserId = some usr.id then
                  ({ lr with status := LeaveStatus.CANCELED } : LeaveRequest)
                else lr) r = r := by
              simp [hrst]
            rw [h3] at h2
            exact h2

/- ---------- concrete fixtures ---------- -/

/-- Environment with today = day 3 of the month (inside the default
phase-1 window) and every weekday reported as Thu. -/
def envP1 : Env :=
  { todayDayIn := fun _ => 3, weekdayIn := fun _ _ => "Thu" }

/-- Environment with today = day 7 (inside the default phase-2 window). -/
def envP2 : Env :=
  { todayDayIn := fun _ => 7, weekdayIn := fun _ _ => "Thu" }

def userD : AuthUser := { id := "D", storeId := "s1", role := Role.DESIGNER }

def userA : AuthUser := { id := "A", storeId := "s1", role := Role.ASSISTANT }

def userM : AuthUser := { id := "M", storeId := "s1", role := Role.MANAGER }

/-- Fixture for the C4 counterexample: the assistant bound to the
designer already has a PENDING self request on the date. -/
def dbC4 : DB :=
  { stores := [{ id := "s1", timezone := "tz" }]
    users :=
      [ { id := "D", storeId := "s1", displayName := "D",
          role := Role.DESIGNER, active := true,
          baseDemand := none, baseSupply := none },
        { id := "A", storeId := "s1", displayName := "A",
          role := Role.ASSISTANT, active := true,
          baseDemand := none, baseSupply := none } ]
    config := []
    leave := [ { id := "r1", storeId := "s1", userId := "A",
                 date := "2025-07-10", status := LeaveStatus.PENDING,
                 source := LeaveSource.SELF,
                 createdByUserId := some "A", linkedToId := none } ]
    bindings := [ { id := "b1", storeId := "s1", assistantId := "A",
                    designerId := "D", active := true } ]
    overrides := []
    bookings := []
    approvals := []
    nextId := 0 }

/-- Fixture for the C5 counterexample and the re-request witness: the
assistant holds a CANCELED record for the date. -/
def r1C5 : LeaveRequest :=
  { id := "r1", storeId := "s1", userId := "A", date := "2025-07-10",
    status := LeaveStatus.CANCELED, source := LeaveSource.SELF,
    createdByUserId := some "A", linkedToId := none }

def dbC5 : DB :=
  { stores := [{ id := "s1", timezone := "tz" }]
    users :=
      [ { id := "A", storeId := "s1", displayName := "A",
          role := Role.ASSISTANT, active := true,
          baseDemand := none, baseSupply := none } ]
    config := []
    leave := [r1C5]
    bindings := []
    overrides := []
    bookings := []
    approvals := []
    nextId := 0 }

/-- C4 counterexample: the designer's self request succeeds, the
binding to assistant A is active and the mirror policy is auto_create,
yet A — who already holds an active request for the date — receives no
BINDING_MIRROR request at all: the claim's "for every active binding"
fails. -/
theorem designer_mirror_counterexample :
    ((leavePOST envP1 dbC4 userD "2025-07-10").2.leave.any (fun lr =>
      lr.userId = "D" && lr.date = "2025-07-10" &&
      lr.status = LeaveStatus.PENDING && lr.source = LeaveSource.SELF)) = true ∧
    ({ id := "b1", storeId := "s1", assistantId := "A", designerId := "D",
       active := true } : Binding) ∈ dbC4.bindings ∧
    getStringConfig dbC4.config "s1" ("binding_mirror_leave")
      "auto_create" = "auto_create" ∧
    ((leavePOST envP1 dbC4 userD "2025-07-10").2.leave.all (fun lr =>
      !(lr.userId = "A" && lr.source = LeaveSource.BINDING_MIRROR))) = true := by
  have hiso2 : isIsoDate ("2025-07-10") = true := by decide
  refine ⟨?_, by decide, by decide, ?_⟩
  · norm_num [leavePOST, dbC4, envP1, userD, getMonthAvailability, buildCtx,
      mkDay, getNumberConfig, getBooleanConfig, getStringConfig, getConfigValue,
      hiso2, strTake, strStarts, daysInMonth, digitsToNat, gregMonthLen,
      dateFromMonthDay, pad2, charTrim, offPairs, myLeaveFor, offUsersFor,
      pushOffUser, demandOverrideFor, hasBooking, isOffStatus, isOffOn,
      isStoreClosedOn, assistantSupplySumOn, rookieSupplySumOn,
      designerDemandSumOn, remainingQuotaOn, phaseLocked, satBlockOn,
      masterBlockOn, selfParentStep, mirrorLoop, mirrorStep, freshId,
      updateLeaveById, List.isPrefixOf, List.range', List.find?, List.filter,
      List.foldl, List.all, List.any]
  · norm_num [leavePOST, dbC4, envP1, userD, getMonthAvailability, buildCtx,
      mkDay, getNumberConfig, getBooleanConfig, getStringConfig, getConfigValue,
      hiso2, strTake, strStarts, daysInMonth, digitsToNat, gregMonthLen,
      dateFromMonthDay, pad2, charTrim, offPairs, myLeaveFor, offUsersFor,
      pushOffUser, demandOverrideFor, hasBooking, isOffStatus, isOffOn,
      isStoreClosedOn, assistantSupplySumOn, rookieSupplySumOn,
      designerDemandSumOn, remainingQuotaOn, phaseLocked, satBlockOn,
      masterBlockOn, selfParentStep, mirrorLoop, mirrorStep, freshId,
      updateLeaveById, List.isPrefixOf, List.range', List.find?, List.filter,
      List.foldl, List.all]
    all_goals decide

/-- C5 counterexample: the stored record r1 is CANCELED (terminal), yet
a later self request for the same user and date flips that very record
back to PENDING — same id, no new record — contradicting "no later
operation changes that record's status" and "served by creating a new
record". -/
theorem terminal_record_mutated_counterexample :
    dbC5.leave.map (fun lr => (lr.id, lr.status)) =
      [("r1", LeaveStatus.CANCELED)] ∧
    ((leavePOST envP2 dbC5 userA "2025-07-10").2.leave.map
      (fun lr => (lr.id, lr.status))) = [("r1", LeaveStatus.PENDING)] := by
  have hiso2 : isIsoDate ("2025-07-10") = true := by decide
  refine ⟨by decide, ?_⟩
  norm_num [leavePOST, dbC5, r1C5, envP2, userA, getMonthAvailability,
    buildCtx, mkDay, getNumberConfig, getBooleanConfig, getStringConfig,
    getConfigValue, hiso2, strTake, strStarts, daysInMonth, digitsToNat,
    gregMonthLen, dateFromMonthDay, pad2, charTrim, offPairs, myLeaveFor,
    offUsersFor, pushOffUser, demandOverrideFor, hasBooking, isOffStatus,
    isOffOn, isStoreClosedOn, assistantSupplySumOn, rookieSupplySumOn,
    designerDemandSumOn, remainingQuotaOn, phaseLocked, satBlockOn,
    masterBlockOn, selfParentStep, mirrorLoop, mirrorStep, freshId,
    updateLeaveById, List.isPrefixOf, List.range', List.find?, List.filter,
    List.foldl, List.map]

/- ---------- witness fixtures and witnesses ---------- -/

/-- The designer requester of the engine witnesses. -/
def reqD : Requester := { userId := "D", role := Role.DESIGNER }

/-- The month context of the engine witnesses: store s1, July 2025,
today = day 3, requested by the designer. -/
def ctxW : MonthCtx := buildCtx envP1 dbC4 "s1" "tz" ("2025-07") reqD

/-- Day 10 of the witness month. -/
def dayW : AvailabilityDay := mkDay envP1 ctxW 10

theorem dayW_mem :
    dayW ∈ (getMonthAvailability envP1 dbC4 "s1" "tz" ("2025-07") reqD).days := by
  have h : (10 : Nat) ∈ List.range' 1 (daysInMonth ("2025-07")) := by decide
  exact List.mem_map_of_mem (mkDay envP1 ctxW) h

/-- C1 witness: day 10 of July 2025 in the concrete store of dbC4. -/
theorem quota_identity_witness :
    dayW ∈ (getMonthAvailability envP1 dbC4 "s1" "tz" ("2025-07") reqD).days ∧
    (dayW.remainingQuota = dayW.assistantSupply + dayW.rookieSupply -
        dayW.designerDemand * dayW.safetyFactor ∧
     dayW.assistantSupply = specAssistantSupply dbC4 "s1" dayW.date ∧
     dayW.rookieSupply = specRookieSupply dbC4 "s1" dayW.date ∧
     dayW.designerDemand = specDesignerDemand dbC4 "s1" dayW.date) :=
  ⟨dayW_mem, quota_identity_and_off_users_excluded envP1 dbC4 "s1" "tz"
    ("2025-07") reqD dayW dayW_mem⟩

/-- C2 witness: the sign rule and the designer-advisory verdict at the
same concrete day. -/
theorem quota_full_rule_witness :
    dayW ∈ (getMonthAvailability envP1 dbC4 "s1" "tz" ("2025-07") reqD).days ∧
    ((("QUOTA_FULL" ∈ dayW.reasons) ↔ dayW.remainingQuota < 0) ∧
     (reqD.role = Role.DESIGNER →
       dayW.selectable =
         (!phaseLocked ctxW && !isStoreClosedOn envP1 ctxW dayW.date)) ∧
     ((reqD.role = Role.ASSISTANT ∨ reqD.role = Role.ROOKIE) →
       dayW.remainingQuota < 0 → dayW.selectable = false)) :=
  ⟨dayW_mem, quota_full_reason_rule envP1 dbC4 "s1" "tz" ("2025-07") reqD
    dayW dayW_mem⟩

/-- C3 witness: the phase verdict at the same concrete day. -/
theorem phase_lock_rule_witness :
    dayW ∈ (getMonthAvailability envP1 dbC4 "s1" "tz" ("2025-07") reqD).days ∧
    ((reqD.role = Role.DESIGNER →
        (("PHASE_LOCK" ∈ dayW.reasons) ↔
          ¬((getNumberConfig dbC4.config "s1" ("phase1_start_day") 1 ≤
               (envP1.todayDayIn "tz" : ℚ) ∧
             (envP1.todayDayIn "tz" : ℚ) ≤
               getNumberConfig dbC4.config "s1" ("phase1_end_day") 5) ∨
            (getNumberConfig dbC4.config "s1" ("phase2_start_day") 6 ≤
               (envP1.todayDayIn "tz" : ℚ) ∧
             (envP1.todayDayIn "tz" : ℚ) ≤
               getNumberConfig dbC4.config "s1" ("phase2_end_day") 31)))) ∧
     ((reqD.role = Role.ASSISTANT ∨ reqD.role = Role.ROOKIE) →
        (("PHASE_LOCK" ∈ dayW.reasons) ↔
          ¬(getNumberConfig dbC4.config "s1" ("phase2_start_day") 6 ≤
              (envP1.todayDayIn "tz" : ℚ) ∧
            (envP1.todayDayIn "tz" : ℚ) ≤
              getNumberConfig dbC4.config "s1" ("phase2_end_day") 31))) ∧
     (("PHASE_LOCK" ∈ dayW.reasons) → dayW.selectable = false)) :=
  ⟨dayW_mem, phase_lock_rule envP1 dbC4 "s1" "tz" ("2025-07") reqD
    dayW dayW_mem⟩

/-- C8 witness: the rookie supply formula at the same concrete day. -/
theorem rookie_supply_rule_witness :
    dayW ∈ (getMonthAvailability envP1 dbC4 "s1" "tz" ("2025-07") reqD).days ∧
    dayW.rookieSupply = specRookieSupply dbC4 "s1" dayW.date :=
  ⟨dayW_mem, rookie_booking_supply_rule envP1 dbC4 "s1" "tz" ("2025-07") reqD
    dayW dayW_mem⟩

/-- The active PENDING record of dbC4 (assistant A on 2025-07-10). -/
def rC4 : LeaveRequest :=
  { id := "r1", storeId := "s1", userId := "A", date := "2025-07-10",
    status := LeaveStatus.PENDING, source := LeaveSource.SELF,
    createdByUserId := some "A", linkedToId := none }

/-- C9 witness: assistant A re-requests 2025-07-10 while the PENDING
record rC4 is stored; the route answers ALREADY_REQUESTED and returns
the state unchanged. -/
theorem duplicate_conflict_witness :
    uniquePairs dbC4.leave ∧ rC4 ∈ dbC4.leave ∧
    isOffStatus rC4.status = true ∧
    leavePOST envP1 dbC4 userA "2025-07-10" =
      (PostResult.alreadyRequested LeaveStatus.PENDING, dbC4) := by
  have hu : uniquePairs dbC4.leave := by
    unfold uniquePairs
    decide
  refine ⟨hu, by decide, by decide, ?_⟩
  exact duplicate_active_request_conflict envP1 dbC4 userA "2025-07-10" rC4 hu
    (by decide) rfl rfl (by decide) (by decide)

/-- C10 witness: the invariant holds in dbC4 and each of the five
operations applied there keeps it. -/
theorem unique_invariant_witness :
    uniquePairs dbC4.leave ∧
    (uniquePairs (leavePOST envP1 dbC4 userA "2025-07-10").2.leave ∧
     uniquePairs (leaveDELETE dbC4 userA "2025-07-10").2.leave ∧
     uniquePairs (approvePOST dbC4 userM "r1" ApprovalAction.APPROVE none).2.leave ∧
     uniquePairs (setLeaveStatus dbC4 userM "r1" ApprovalAction.REJECT).leave ∧
     uniquePairs (createManagerLeave dbC4 userM "A" "2025-07-11").leave) := by
  have hu : uniquePairs dbC4.leave := by
    unfold uniquePairs
    decide
  refine ⟨hu, ?_⟩
  exact unique_user_date_invariant_preserved envP1 dbC4 userA userA userM userM
    ("2025-07-10") ("2025-07-10") "r1" "A" ("2025-07-11")
    ApprovalAction.APPROVE ApprovalAction.REJECT none hu (by decide)

/-- The PENDING parent of the C6 witness. -/
def p1W6 : LeaveRequest :=
  { id := "p1", storeId := "s1", userId := "D", date := "2025-07-12",
    status := LeaveStatus.PENDING, source := LeaveSource.SELF,
    createdByUserId := some "D", linkedToId := none }

/-- A still-PENDING mirror linked to p1. -/
def m1W6 : LeaveRequest :=
  { id := "m1", storeId := "s1", userId := "A", date := "2025-07-12",
    status := LeaveStatus.PENDING, source := LeaveSource.BINDING_MIRROR,
    createdByUserId := some "D", linkedToId := some "p1" }

/-- A linked mirror that is no longer PENDING. -/
def m2W6 : LeaveRequest :=
  { id := "m2", storeId := "s1", userId := "B", date := "2025-07-12",
    status := LeaveStatus.REJECTED, source := LeaveSource.BINDING_MIRROR,
    createdByUserId := some "D", linkedToId := some "p1" }

def dbW6 : DB :=
  { stores := [{ id := "s1", timezone := "tz" }], users := [], config := [],
    leave := [p1W6, m1W6, m2W6], bindings := [], overrides := [],
    bookings := [], approvals := [], nextId := 0 }

/-- The state after the manager approves p1 in dbW6: parent and the
PENDING mirror APPROVED, the REJECTED mirror untouched, one approval
row recorded. -/
def db2W6 : DB :=
  { dbW6 with
    leave := [{ p1W6 with status := LeaveStatus.APPROVED },
              { m1W6 with status := LeaveStatus.APPROVED }, m2W6],
    approvals := [{ storeId := "s1", leaveRequestId := "p1", managerId := "M",
                    action := ApprovalAction.APPROVE, reason := none }] }

/-- C6 witness: manager M approves p1 in dbW6; the PENDING mirror m1
becomes APPROVED, the REJECTED mirror m2 is unchanged, and the approval
row is recorded. -/
theorem approve_cascade_witness :
    approvePOST dbW6 userM "p1" ApprovalAction.APPROVE none =
      (ApproveResult.ok { p1W6 with status := LeaveStatus.APPROVED }, db2W6) ∧
    ((∀ m ∈ dbW6.leave, m.linkedToId = some "p1" →
        m.status = LeaveStatus.PENDING →
        { m with status := nextStatusOf ApprovalAction.APPROVE } ∈ db2W6.leave) ∧
     (∀ m ∈ dbW6.leave, m.linkedToId = some "p1" →
        m.status ≠ LeaveStatus.PENDING → m.id ≠ "p1" → m ∈ db2W6.leave) ∧
     ({ p1W6 with status := LeaveStatus.APPROVED } : LeaveRequest) ∈ db2W6.leave ∧
     ({ p1W6 with status := LeaveStatus.APPROVED } : LeaveRequest).status =
        nextStatusOf ApprovalAction.APPROVE ∧
     db2W6.approvals = dbW6.approvals ++ [{
        storeId := "s1", leaveRequestId := "p1", managerId := "M",
        action := ApprovalAction.APPROVE, reason := none }]) := by
  have h : approvePOST dbW6 userM "p1" ApprovalAction.APPROVE none =
      (ApproveResult.ok { p1W6 with status := LeaveStatus.APPROVED }, db2W6) := by
    decide
  exact ⟨h, approve_cascades_to_pending_mirrors dbW6 userM "p1"
    ApprovalAction.APPROVE none _ db2W6 h⟩

/-- The designer's own PENDING request of the C7 witness. -/
def e1W7 : LeaveRequest :=
  { id := "e1", storeId := "s1", userId := "D", date := "2025-07-12",
    status := LeaveStatus.PENDING, source := LeaveSource.SELF,
    createdByUserId := some "D", linkedToId := none }

/-- A PENDING mirror the designer created, linked to e1. -/
def m1W7 : LeaveRequest :=
  { id := "m1", storeId := "s1", userId := "A", date := "2025-07-12",
    status := LeaveStatus.PENDING, source := LeaveSource.BINDING_MIRROR,
    createdByUserId := some "D", linkedToId := some "e1" }

/-- An independently created request of another user on the same date. -/
def u3W7 : LeaveRequest :=
  { id := "u3", storeId := "s1", userId := "B", date := "2025-07-12",
    status := LeaveStatus.PENDING, source := LeaveSource.SELF,
    createdByUserId := some "B", linkedToId := none }

def dbW7 : DB :=
  { stores := [{ id := "s1", timezone := "tz" }], users := [], config := [],
    leave := [e1W7, m1W7, u3W7], bindings := [], overrides := [],
    bookings := [], approvals := [], nextId := 0 }

/-- C7 witness: the designer cancels e1; exactly e1 and the mirror m1
become CANCELED pointwise and u3 is returned unchanged. -/
theorem cancel_blast_witness :
    dbW7.leave.find? (fun lr =>
        lr.storeId = userD.storeId && lr.userId = userD.id &&
        lr.date = "2025-07-12" && isOffStatus lr.status) = some e1W7 ∧
    leaveDELETE dbW7 userD "2025-07-12" =
      (DeleteResult.ok,
       { dbW7 with leave := dbW7.leave.map (fun r =>
           if r.id = e1W7.id then { r with status := LeaveStatus.CANCELED }
           else if r.storeId = userD.storeId && r.linkedToId = some e1W7.id &&
                   r.status = LeaveStatus.PENDING &&
                   r.createdByUserId = some userD.id then
             { r with status := LeaveStatus.CANCELED }
           else r) }) := by
  have hfind : dbW7.leave.find? (fun lr =>
      lr.storeId = userD.storeId && lr.userId = userD.id &&
      lr.date = "2025-07-12" && isOffStatus lr.status) = some e1W7 := by decide
  exact ⟨hfind, cancel_blast_radius dbW7 userD "2025-07-12" e1W7 (by decide)
    hfind rfl rfl⟩

/-- The C4 witness state: dbC4 without any stored leave row, so the
bound assistant has no active request on the date. -/
def dbW4 : DB :=
  { dbC4 with leave := [] }

def ctxW4 : MonthCtx :=
  buildCtx envP1 dbW4 "s1" "tz" (strTake ("2025-07-10") 7)
    { userId := "D", role := Role.DESIGNER }

def dayW4 : AvailabilityDay := mkDay envP1 ctxW4 10

/-- C4 witness: in dbW4 the designer's request for 2025-07-10 is
selectable and leaves the bound assistant A with a mirrored PENDING
request linked to the created parent. -/
theorem designer_mirror_witness :
    dbW4.stores.find? (fun s => s.id = userD.storeId) =
      some { id := "s1", timezone := "tz" } ∧
    (getMonthAvailability envP1 dbW4 "s1" "tz" (strTake ("2025-07-10") 7)
        { userId := userD.id, role := userD.role }).days.find?
        (fun day => day.date = "2025-07-10") = some dayW4 ∧
    dayW4.selectable = true ∧
    ∃ p : LeaveRequest,
      (leavePOST envP1 dbW4 userD "2025-07-10").1 = PostResult.ok p ∧
      mirroredRow (leavePOST envP1 dbW4 userD "2025-07-10").2.leave "A"
        ("2025-07-10") "D" p.id := by
  have hday : (getMonthAvailability envP1 dbW4 "s1" "tz" (strTake ("2025-07-10") 7)
      { userId := userD.id, role := userD.role }).days.find?
      (fun day => day.date = "2025-07-10") = some dayW4 := by rfl
  have hsel : dayW4.selectable = true := by
    norm_num [dayW4, ctxW4, mkDay, buildCtx, dbW4, dbC4, envP1, getNumberConfig,
      getBooleanConfig, getStringConfig, getConfigValue, strTake, strStarts,
      daysInMonth, digitsToNat, gregMonthLen, dateFromMonthDay, pad2, charTrim,
      offPairs, myLeaveFor, offUsersFor, pushOffUser, demandOverrideFor,
      hasBooking, isOffStatus, isOffOn, isStoreClosedOn, assistantSupplySumOn,
      rookieSupplySumOn, designerDemandSumOn, remainingQuotaOn, phaseLocked,
      satBlockOn, masterBlockOn, List.isPrefixOf, List.range', List.find?,
      List.filter, List.foldl, List.map]
    exact ⟨by decide, Or.inl (by decide)⟩
  refine ⟨by decide, hday, hsel, ?_⟩
  exact designer_mirror_creation_amended envP1 dbW4 userD "2025-07-10"
    { id := "b1", storeId := "s1", assistantId := "A", designerId := "D",
      active := true }
    { id := "s1", timezone := "tz" } dayW4
    (by decide) rfl (by decide)
    (fun lr hmem => absurd hmem (List.not_mem_nil lr))
    (by decide) rfl rfl rfl (by decide)
    (fun lr hmem => absurd hmem (List.not_mem_nil lr))
    (by decide) (by decide) hday hsel

/-- The record r1C5 as the self re-request resets it. -/
def pC5 : LeaveRequest :=
  { id := "r1", storeId := "s1", userId := "A", date := "2025-07-10",
    status := LeaveStatus.PENDING, source := LeaveSource.SELF,
    createdByUserId := some "A", linkedToId := none }

set_option maxHeartbeats 1000000 in
theorem leavePOST_dbC5_eval :
    leavePOST envP2 dbC5 userA "2025-07-10" =
      (PostResult.ok pC5, { dbC5 with leave := [pC5] }) := by
  have hiso2 : isIsoDate ("2025-07-10") = true := by decide
  have hne1 : (LeaveStatus.CANCELED = LeaveStatus.PENDING) = False := by simp
  have hne2 : (LeaveStatus.CANCELED = LeaveStatus.APPROVED) = False := by simp
  have hD1 : decide (strTake ("2025-07-10") 7 ++ "-" ++ ("0" ++ toString 1) = "2025-07-10") = false := by decide
  have hD2 : decide (strTake ("2025-07-10") 7 ++ "-" ++ ("0" ++ toString 2) = "2025-07-10") = false := by decide
  have hD3 : decide (strTake ("2025-07-10") 7 ++ "-" ++ ("0" ++ toString 3) = "2025-07-10") = false := by decide
  have hD4 : decide (strTake ("2025-07-10") 7 ++ "-" ++ ("0" ++ toString 4) = "2025-07-10") = false := by decide
  have hD5 : decide (strTake ("2025-07-10") 7 ++ "-" ++ ("0" ++ toString 5) = "2025-07-10") = false := by decide
  have hD6 : decide (strTake ("2025-07-10") 7 ++ "-" ++ ("0" ++ toString 6) = "2025-07-10") = false := by decide
  have hD7 : decide (strTake ("2025-07-10") 7 ++ "-" ++ ("0" ++ toString 7) = "2025-07-10") = false := by decide
  have hD8 : decide (strTake ("2025-07-10") 7 ++ "-" ++ ("0" ++ toString 8) = "2025-07-10") = false := by decide
  have hD9 : decide (strTake ("2025-07-10") 7 ++ "-" ++ ("0" ++ toString 9) = "2025-07-10") = false := by decide
  have hD10 : decide (strTake ("2025-07-10") 7 ++ "-" ++ toString 10 = "2025-07-10") = true := by decide
  have hd10 : strTake ("2025-07-10") 7 ++ "-" ++ toString 10 = "2025-07-10" := by decide
  have hdim : daysInMonth (strTake ("2025-07-10") 7) = 31 := by decide
  norm_num [leavePOST, dbC5, r1C5, pC5, envP2, userA, getMonthAvailability,
    buildCtx, mkDay, getNumberConfig, getBooleanConfig, getStringConfig,
    getConfigValue, hiso2, hne1, hne2, hD1, hD2, hD3, hD4, hD5, hD6, hD7,
    hD8, hD9, hD10, hd10, hdim, strStarts, daysInMonth,
    digitsToNat, gregMonthLen, dateFromMonthDay, pad2, charTrim,
    offPairs, myLeaveFor, offUsersFor, pushOffUser, demandOverrideFor,
    hasBooking, isOffStatus, isOffOn, isStoreClosedOn, assistantSupplySumOn,
    rookieSupplySumOn, designerDemandSumOn, remainingQuotaOn, phaseLocked,
    satBlockOn, masterBlockOn, selfParentStep, mirrorLoop, mirrorStep, freshId,
    updateLeaveById, List.isPrefixOf, List.range', List.find?, List.filter,
    List.foldl, List.map]
  all_goals decide

/-- C5 witness: the assistant's re-request over the CANCELED record r1
succeeds with the same record id reset to PENDING SELF and the number
of rows for the pair unchanged. -/
theorem terminal_reuse_witness :
    dbC5.leave.find? (fun lr => lr.userId = userA.id && lr.date = "2025-07-10") =
      some r1C5 ∧
    ((pC5.id = r1C5.id ∧ pC5.status = LeaveStatus.PENDING ∧
      pC5.source = LeaveSource.SELF) ∧
     pairCount (leavePOST envP2 dbC5 userA "2025-07-10").2.leave userA.id
       ("2025-07-10") = pairCount dbC5.leave userA.id ("2025-07-10")) := by
  have hok1 : (leavePOST envP2 dbC5 userA "2025-07-10").1 = PostResult.ok pC5 := by
    rw [leavePOST_dbC5_eval]
  exact ⟨by decide, terminal_records_reused_in_place.1 envP2 dbC5 userA
    ("2025-07-10") r1C5 (by decide) (Or.inl rfl) pC5 hok1⟩

end Sunday
